import Mathlib

/-
  Shallow embedding of the Load-Tester repository (src/StressTest.js,
  src/flows/flow-loader.js) in Lean 4.

  Modelling conventions:
  * JavaScript values reachable in this program are modelled by the
    inductive type JSVal (JSON-style trees).  The JavaScript value
    "undefined" is modelled as Option.none at use sites, so an
    Option JSVal is "a JS value or undefined".
  * Object properties may themselves hold undefined, hence jobj fields
    carry Option JSVal.
  * Machine time (Date.now differences) and transport behaviour (axios)
    are external to the program; they enter the model as explicit
    oracle inputs (TransportOutcome).  Likewise the JavaScript regular
    expression engine, the Function constructor and JSON.parse or
    JSON.stringify are external collaborators, passed in the JsExt record.
  * Exceptions are modelled with Except String; a thrown JS error is
    Except.error of its message.
-/

/-- Model of the JavaScript values this program manipulates. -/
inductive JSVal where
  | jnull : JSVal
  | jbool (b : Bool) : JSVal
  | jnum (n : Int) : JSVal
  | jstr (s : String) : JSVal
  | jarr (elems : List JSVal) : JSVal
  | jobj (fields : List (String × Option JSVal)) : JSVal

/-- JS truthiness of a defined value. -/
def truthy : JSVal → Bool
  | .jnull => false
  | .jbool b => b
  | .jnum n => n != 0
  | .jstr s => !s.isEmpty
  | .jarr _ => true
  | .jobj _ => true

/-- JS truthiness of a possibly undefined value. -/
def truthyOpt : Option JSVal → Bool
  | none => false
  | some v => truthy v

/-- Whether a defined value is the JS null literal. -/
def isNullV : Option JSVal → Bool
  | some .jnull => true
  | _ => false

mutual

/-- JS default stringification (template literal or String(v)).
    Array elements that are null stringify to the empty string, per
    Array.prototype.toString; plain objects print as [object Object]. -/
def jsValToString : JSVal → String
  | .jnull => "null"
  | .jbool b => cond b "true" "false"
  | .jnum n => toString n
  | .jstr s => s
  | .jarr xs => String.intercalate "," (jsArrElems xs)
  | .jobj _ => "[object Object]"

/-- Array join element strings: null (and in full JS undefined) joins as
    the empty string. -/
def jsArrElems : List JSVal → List String
  | [] => []
  | .jnull :: vs => "" :: jsArrElems vs
  | v :: vs => jsValToString v :: jsArrElems vs

end

/-- JS stringification of a possibly undefined value, as in a template
    literal: undefined prints as the word undefined. -/
def jsToString : Option JSVal → String
  | none => "undefined"
  | some v => jsValToString v

/-- Strict equality on primitives; arrays and objects compare by
    reference in JS, and the two operands here always come from distinct
    allocations (response body vs configuration), so they compare false. -/
def strictEqPrim : JSVal → JSVal → Bool
  | .jnull, .jnull => true
  | .jbool a, .jbool b => a == b
  | .jnum a, .jnum b => a == b
  | .jstr a, .jstr b => a == b
  | _, _ => false

/-- JS strict equality over possibly undefined operands. -/
def strictEq : Option JSVal → Option JSVal → Bool
  | none, none => true
  | some a, some b => strictEqPrim a b
  | _, _ => false

/-- Character-level whitespace trimming (both ends). -/
def trimChars (cs : List Char) : List Char :=
  (((cs.dropWhile Char.isWhitespace).reverse.dropWhile Char.isWhitespace)).reverse

/-- Decimal digit run folded onto an accumulator; none when a non-digit
    occurs. -/
def digitsToNatAux : List Char → Nat → Option Nat
  | [], acc => some acc
  | c :: cs, acc =>
      if c.isDigit then digitsToNatAux cs (acc * 10 + (c.toNat - 48)) else none

/-- Nonempty decimal digit run to a natural number. -/
def digitsToNat : List Char → Option Nat
  | [] => none
  | cs => digitsToNatAux cs 0

/-- Signed decimal integer parsing, character level, as JS ToNumber does
    for integer literals (leading plus or minus allowed). -/
def parseIntChars : List Char → Option Int
  | [] => none
  | c :: cs =>
      if c == '-' then (digitsToNat cs).map (fun n => -(n : Int))
      else if c == '+' then (digitsToNat cs).map (fun n => (n : Int))
      else (digitsToNat (c :: cs)).map (fun n => (n : Int))

/-- JS ToNumber on the values that can appear here.  A result of none is
    NaN.  A numeric string parses; the empty or blank string is 0;
    arrays and objects are modelled as NaN (their ToPrimitive detour is
    not exercised by this program). -/
def jsToNumber : Option JSVal → Option Int
  | none => none
  | some .jnull => some 0
  | some (.jbool b) => some (cond b 1 0)
  | some (.jnum n) => some n
  | some (.jstr s) =>
      let t := trimChars s.data
      if t.isEmpty then some 0 else parseIntChars t
  | some (.jarr _) => none
  | some (.jobj _) => none

/-- Comparison of two ToNumber results; none is NaN and compares
    false. -/
def optIntLt (x y : Option Int) : Bool :=
  match x, y with
  | some a, some b => decide (a < b)
  | _, _ => false

/-- Non-strict comparison of two ToNumber results; none is NaN and
    compares false. -/
def optIntLe (x y : Option Int) : Bool :=
  match x, y with
  | some a, some b => decide (a ≤ b)
  | _, _ => false

/-- JS abstract relational a less-than b: string-string compares
    lexicographically, otherwise both sides pass through ToNumber and a
    NaN makes the comparison false. -/
def jsLtB (a b : Option JSVal) : Bool :=
  match a, b with
  | some (.jstr x), some (.jstr y) => decide (x < y)
  | _, _ => optIntLt (jsToNumber a) (jsToNumber b)

/-- JS a greater-than b. -/
def jsGtB (a b : Option JSVal) : Bool := jsLtB b a

/-- JS a less-or-equal b: the negation of b less-than a, except that an
    undefined (NaN) comparison is false. -/
def jsLeB (a b : Option JSVal) : Bool :=
  match a, b with
  | some (.jstr x), some (.jstr y) => !decide (y < x)
  | _, _ => optIntLe (jsToNumber a) (jsToNumber b)

/-- JS a greater-or-equal b. -/
def jsGeB (a b : Option JSVal) : Bool := jsLeB b a

/-- SameValueZero between an array element and a searched value, as used
    by Array.prototype.includes; composite values compare by reference,
    hence false here. -/
def sameValueZero (x : JSVal) (av : Option JSVal) : Bool :=
  match av with
  | none => false
  | some y => strictEqPrim x y

/-- Whether the first character list is a leading segment of the second. -/
def leadsWith : List Char → List Char → Bool
  | [], _ => true
  | _ :: _, [] => false
  | p :: ps, c :: cs => p == c && leadsWith ps cs

/-- Whether the first character list occurs contiguously in the second. -/
def hasSubChars (t : List Char) : List Char → Bool
  | [] => t.isEmpty
  | c :: s' => leadsWith t (c :: s') || hasSubChars t s'

/-- Substring test corresponding to String.prototype.includes. -/
def strIncludes (s t : String) : Bool :=
  hasSubChars t.data s.data

/-- The jsonPath contains operator body:
    value and value.includes and value.includes(arg).
    A falsy value fails, a value without an includes method fails,
    strings test substrings (argument coerced to string), arrays test
    membership with SameValueZero. -/
def jsContains (value av : Option JSVal) : Bool :=
  if !truthyOpt value then false
  else
    match value with
    | some (.jstr s) => strIncludes s (jsToString av)
    | some (.jarr xs) => xs.any fun x => sameValueZero x av
    | _ => false

/-- Canonical array index parsing: obj[k] on an array hits an element
    only when k is the canonical decimal form of an index. -/
def parseIndex (k : String) : Option Nat :=
  match digitsToNat k.data with
  | some n => if toString n == k then some n else none
  | none => none

/-- String.prototype.split on the dot character: empty segments are kept
    and the empty string splits to one empty segment. -/
def splitOnDots : List Char → List (List Char)
  | [] => [[]]
  | c :: cs =>
      if c == '.' then [] :: splitOnDots cs
      else
        match splitOnDots cs with
        | s :: ss => (c :: s) :: ss
        | [] => [[c]]

/-- Dot-path segmentation of a key string. -/
def splitPath (s : String) : List String :=
  (splitOnDots s.data).map String.mk

/-- JS property read v[k] on a defined value.  Objects look up own
    properties (a stored undefined is distinguished only from the
    caller's viewpoint, both give undefined here); arrays expose length
    and canonical indices; strings expose length and characters.
    Method properties are not data and are not modelled. -/
def getProp : JSVal → String → Option JSVal
  | .jobj fs, k =>
      match fs.find? (fun p => p.1 == k) with
      | some p => p.2
      | none => none
  | .jarr xs, k =>
      if k == "length" then some (.jnum xs.length)
      else
        match parseIndex k with
        | some n => xs.get? n
        | none => none
  | .jstr s, k =>
      if k == "length" then some (.jnum s.length)
      else
        match parseIndex k with
        | some n => (s.data.get? n).map fun c => .jstr (String.mk [c])
        | none => none
  | _, _ => none

/-- getValueByPath from flow-loader.js: reduce over the dot-separated
    path, stepping with current[key] when current is neither undefined
    nor null, and undefined otherwise. -/
def getValueByPath (obj : Option JSVal) (path : String) : Option JSVal :=
  (splitPath path).foldl
    (fun current key =>
      match current with
      | none => none
      | some .jnull => none
      | some v => getProp v key)
    obj

/-- The per-flow context: a mutable JS object mapping keys to saved
    values (possibly undefined). -/
def Context := List (String × Option JSVal)

/-- JS object assignment ctx[k] = v: overwrite in place, else append. -/
def ctxSet : Context → String → Option JSVal → Context
  | [], k, v => [(k, v)]
  | (k', v') :: rest, k, v =>
      if k' == k then (k, v) :: rest else (k', v') :: ctxSet rest k v

/-- Context property read. -/
def ctxGet (ctx : Context) (k : String) : Option (Option JSVal) :=
  (ctx.find? (fun p => p.1 == k)).map (fun p => p.2)

/-- The opening brace character. -/
def lb : Char := '\x7b'

/-- The closing brace character. -/
def rb : Char := '\x7d'

/-- The template placeholder walk of replaceTemplateValues: start at the
    context object; before each property step, a null or undefined
    current value aborts (keep the placeholder).  The final value is
    returned as is, even when it is null. -/
def templWalk : Option JSVal → List String → Option (Option JSVal)
  | v, [] => some v
  | none, _ :: _ => none
  | some .jnull, _ :: _ => none
  | some v, p :: ps => templWalk (getProp v p) ps

/-- Resolution of one placeholder key against the context.  none means
    the original placeholder text is kept (missing segment, or final
    value undefined); otherwise the replacement string, which for a
    final null is the string null, by ToString coercion of the
    replacer return value in String.prototype.replace. -/
def resolvePlaceholder (ctx : Context) (key : String) : Option String :=
  match templWalk (some (.jobj ctx)) (splitPath key) with
  | none => none
  | some none => none
  | some (some v) => some (jsValToString v)

/-- Scanner for one match of the template regular expression starting
    right after two opening braces: a maximal nonempty run of
    non-closing-brace characters followed by two closing braces.
    Returns the key characters and the remainder after the match. -/
def scanKey : List Char → Option (List Char × List Char)
  | [] => none
  | [_] => none
  | c :: c2 :: cs =>
    if c == rb then none
    else if c2 == rb then
      match cs with
      | c3 :: rest => if c3 == rb then some ([c], rest) else none
      | [] => none
    else
      match scanKey (c2 :: cs) with
      | some (k, r) => some (c :: k, r)
      | none => none

/-- Replacement text for a matched key: the resolved value, or the
    original matched placeholder text when resolution keeps it. -/
def replacementChars (ctx : Context) (key : List Char) : List Char :=
  match resolvePlaceholder ctx (String.mk key) with
  | some s => s.data
  | none => lb :: lb :: key ++ [rb, rb]

/-- Global left-to-right scan of String.prototype.replace with the
    template pattern: at each position try to match a placeholder,
    otherwise emit one character and advance.  The fuel is the input
    length; every step consumes at least one character and one unit of
    fuel, so the zero-fuel case is unreachable from
    replaceTemplateValues. -/
def scanTemplateF (ctx : Context) : Nat → List Char → List Char
  | 0, cs => cs
  | f+1, cs =>
    match cs with
    | [] => []
    | c :: cs' =>
      if c == lb then
        match cs' with
        | c2 :: cs2 =>
          if c2 == lb then
            match scanKey cs2 with
            | some (key, rest) => replacementChars ctx key ++ scanTemplateF ctx f rest
            | none => c :: scanTemplateF ctx f cs'
          else c :: scanTemplateF ctx f cs'
        | [] => [c]
      else c :: scanTemplateF ctx f cs'

/-- replaceTemplateValues from flow-loader.js, on string input.
    Non-string inputs are returned unchanged at the call sites. -/
def replaceTemplateValues (s : String) (ctx : Context) : String :=
  String.mk (scanTemplateF ctx s.data.length s.data)

/-
  Assertion evaluator (runAssertion in flow-loader.js).
-/

/-- The result object every assertion evaluation produces:
    passed is the truthiness of the passed field; error is the error
    field, none standing for JS null. -/
structure AssertionResult where
  passed : Bool
  error : Option String
deriving Repr

/-- The metadata object the responseTime assertion reads from
    response.config; nothing in this repository ever attaches it. -/
structure AxMetadata where
  responseTime : Option Int

/-- The config object axios echoes on its response. -/
structure AxConfig where
  metadata : Option AxMetadata

/-- An axios response as consumed by runAssertion: numeric status, a
    header map with string values, the parsed body (possibly undefined),
    and the echoed request config. -/
structure AxResponse where
  status : Int
  headers : List (String × String)
  data : Option JSVal
  config : AxConfig

/-- A compiled or referenced custom assertion function: it may throw
    (Except.error of the message) or return any JS value (none is
    undefined). -/
def CustomFnImpl := AxResponse → Context → Except String (Option JSVal)

/-- The fn field of a custom assertion: either an actual function
    reference or a source string compiled with new Function at
    evaluation time. -/
inductive CustomFn where
  | ref (f : CustomFnImpl)
  | src (source : String)

/-- The assertion configuration variants dispatched by runAssertion.
    The unknown constructor carries any unrecognized type string and
    lands in the default switch branch. -/
inductive Assertion where
  | statusCode (value : JSVal)
  | jsonPath (path : String) (operator : String) (value : Option JSVal)
  | responseTime (value : Int)
  | header (name : String) (value : Option JSVal)
  | custom (fn : CustomFn)
  | unknown (type : String)

/-- External JavaScript runtime facilities used by the evaluator and the
    step executor: the RegExp engine (compilation of an invalid pattern
    throws, modelled as Except.error of the pattern argument and the
    subject string), the Function constructor, and the JSON codec. -/
structure JsExt where
  regexTest : Option JSVal → String → Except String Bool
  compileFunction : String → Except String CustomFnImpl
  jsonStringify : JSVal → String
  jsonParse : String → Except String JSVal

/-- The exists operator test: value is neither undefined nor null. -/
def jsExistsCheck (v : Option JSVal) : Bool :=
  !(v.isNone || isNullV v)

/-- Strict identity with the boolean true, as in result === true. -/
def isStrictTrue : Option JSVal → Bool
  | some (.jbool true) => true
  | _ => false

/-- JS template stringification of the possibly undefined responseTime
    number. -/
def jsNumOptToString : Option Int → String
  | none => "undefined"
  | some n => toString n

/-- responseTime less-or-equal threshold; an undefined left side is NaN
    and compares false. -/
def jsNumOptLe (a : Option Int) (b : Int) : Bool :=
  match a with
  | some x => decide (x ≤ b)
  | none => false

/-- responseTime greater-than threshold; an undefined left side is NaN
    and compares false. -/
def jsNumOptGt (a : Option Int) (b : Int) : Bool :=
  match a with
  | some x => decide (b < x)
  | none => false

/-- The jsonPath operator dispatch, with the extracted value already
    computed.  Only the match operator can throw here (an invalid
    pattern raised by the RegExp constructor); every other branch
    returns a result object. -/
def evalJsonPathOp (ext : JsExt) (path : String) (op : String) (av : Option JSVal)
    (value : Option JSVal) : Except String AssertionResult :=
  match op with
  | "equals" =>
      pure { passed := strictEq value av,
             error := if strictEq value av then none
                      else some ("Expected " ++ path ++ " to equal " ++ jsToString av
                                 ++ ", got " ++ jsToString value) }
  | "contains" =>
      pure { passed := jsContains value av,
             error := if jsContains value av then none
                      else some ("Expected " ++ path ++ " to contain " ++ jsToString av) }
  | "exists" =>
      pure { passed := jsExistsCheck value,
             error := if jsExistsCheck value then none
                      else some ("Expected " ++ path ++ " to exist") }
  | "notExists" =>
      pure { passed := !jsExistsCheck value,
             error := if jsExistsCheck value
                      then some ("Expected " ++ path ++ " to not exist")
                      else none }
  | "greaterThan" =>
      pure { passed := jsGtB value av,
             error := if jsLeB value av
                      then some ("Expected " ++ path ++ " to be greater than "
                                 ++ jsToString av ++ ", got " ++ jsToString value)
                      else none }
  | "lessThan" =>
      pure { passed := jsLtB value av,
             error := if jsGeB value av
                      then some ("Expected " ++ path ++ " to be less than "
                                 ++ jsToString av ++ ", got " ++ jsToString value)
                      else none }
  | "match" => do
      let b ← ext.regexTest av (jsToString value)
      pure { passed := b,
             error := if b then none
                      else some ("Expected " ++ path ++ " to match " ++ jsToString av
                                 ++ ", got " ++ jsToString value) }
  | _ =>
      pure { passed := false, error := some ("Unknown operator: " ++ op) }

/-- runAssertion from flow-loader.js.  The jsonPath and custom branches
    carry their own try/catch; the responseTime branch does not, so the
    property read on an absent config.metadata escapes as a thrown
    TypeError (the Except.error case). -/
def runAssertion (ext : JsExt) (a : Assertion) (response : AxResponse)
    (flowContext : Context) : Except String AssertionResult :=
  match a with
  | .statusCode v =>
      pure { passed := strictEq (some (.jnum response.status)) (some v),
             error := if strictEq (some (.jnum response.status)) (some v) then none
                      else some ("Expected status " ++ jsValToString v
                                 ++ ", got " ++ toString response.status) }
  | .jsonPath path op av =>
      match evalJsonPathOp ext path op av (getValueByPath response.data path) with
      | .ok r => pure r
      | .error e =>
          pure { passed := false,
                 error := some ("Failed to evaluate path " ++ path ++ ": " ++ e) }
  | .responseTime threshold =>
      match response.config.metadata with
      | none => .error "Cannot read properties of undefined (reading 'responseTime')"
      | some md =>
          pure { passed := jsNumOptLe md.responseTime threshold,
                 error := if jsNumOptGt md.responseTime threshold
                          then some ("Response time " ++ jsNumOptToString md.responseTime
                                     ++ "ms exceeded threshold " ++ toString threshold ++ "ms")
                          else none }
  | .header name av =>
      let headerValue := (response.headers.find? (fun p => p.1 == name)).map (fun p => p.2)
      let hv : Option JSVal := headerValue.map .jstr
      pure { passed := if truthyOpt av then strictEq hv av else headerValue.isSome,
             error := if truthyOpt av then
                        (if strictEq hv av then none
                         else some ("Expected header " ++ name ++ " to be " ++ jsToString av
                                    ++ ", got " ++ jsToString hv))
                      else
                        (if headerValue.isSome then none
                         else some ("Expected header " ++ name ++ " to exist")) }
  | .custom fn =>
      let attempt : Except String (Option JSVal) := do
        let f ← match fn with
                | .ref f => pure f
                | .src s => ext.compileFunction s
        f response flowContext
      match attempt with
      | .ok result =>
          pure { passed := isStrictTrue result,
                 error := if isStrictTrue result then none
                          else some (match result with
                                     | some (.jstr s) => s
                                     | _ => "Custom assertion failed") }
      | .error e =>
          pure { passed := false, error := some ("Custom assertion error: " ++ e) }
  | .unknown t =>
      pure { passed := false, error := some ("Unknown assertion type: " ++ t) }

/-- The per-assertion try/catch in makeRequest: a thrown evaluator error
    becomes a failed assertion whose reason carries the message. -/
def runAssertionCaught (ext : JsExt) (a : Assertion) (response : AxResponse)
    (flowContext : Context) : AssertionResult :=
  match runAssertion ext a response flowContext with
  | .ok r => r
  | .error e => { passed := false, error := some ("Assertion error: " ++ e) }

/-- The operator strings the jsonPath switch recognizes. -/
def knownOps : List String :=
  ["equals", "contains", "exists", "notExists", "greaterThan", "lessThan", "match"]

/-
  Step executor, flow executor, batch run loop and metrics
  (FlowLoader in flow-loader.js), plus the single-request engine
  (StressTest.js).
-/

/-- What the environment supplies for one transport call: the axios
    result (axios also rejects on non-2xx status, so an HTTP failure is
    the error case carrying the thrown message) and the wall-clock
    elapsed time Date.now observes around the call. -/
structure RespCore where
  status : Int
  headers : List (String × String)
  data : Option JSVal

/-- One transport invocation outcome supplied by the environment. -/
structure TransportOutcome where
  result : Except String RespCore
  latency : Nat

/-- A step definition from the flow configuration.  The headers and data
    fields model the values after the string-form JSON decoding that
    executeFlow performs through the JSON collaborator; stopOnFailure is
    none when the key is absent. -/
structure Step where
  name : Option String
  method : String
  url : String
  headers : Option (List (String × JSVal))
  data : Option JSVal
  assertions : Option (List Assertion)
  saveAs : Option String
  saveResponseAs : Option String
  stopOnFailure : Option Bool

/-- The request descriptor handed to the transport. -/
structure RequestConfig where
  method : String
  url : String
  headers : List (String × JSVal)
  data : Option JSVal

/-- requestConfig construction in executeFlow: absent headers default to
    the empty object, falsy data becomes undefined. -/
def buildRequestConfig (step : Step) : RequestConfig :=
  { method := step.method,
    url := step.url,
    headers := step.headers.getD [],
    data := match step.data with
            | some d => if truthy d then some d else none
            | none => none }

/-- Header value templating: replaceTemplateValues returns non-string
    values unchanged. -/
def templateHeaderVal (ctx : Context) (v : JSVal) : JSVal :=
  match v with
  | .jstr s => .jstr (replaceTemplateValues s ctx)
  | v => v

/-- Body templating in makeRequest: a falsy data field is left alone; a
    string is substituted directly; a structured body is serialized,
    substituted and re-parsed, and the re-parse can throw. -/
def templateData (ext : JsExt) (ctx : Context) (d : Option JSVal) :
    Except String (Option JSVal) :=
  if !truthyOpt d then pure d
  else
    match d with
    | some (.jstr s) => pure (some (.jstr (replaceTemplateValues s ctx)))
    | some v => (ext.jsonParse (replaceTemplateValues (ext.jsonStringify v) ctx)).map some
    | none => pure none

/-- The template pass makeRequest applies to the cloned request config
    before calling the transport. -/
def templateRequestConfig (ext : JsExt) (ctx : Context) (c : RequestConfig) :
    Except String RequestConfig := do
  let data ← templateData ext ctx c.data
  pure { c with
         url := replaceTemplateValues c.url ctx,
         headers := c.headers.map (fun p => (p.1, templateHeaderVal ctx p.2)),
         data := data }

/-- Per-step metrics entry.  minLatency none is the Infinity sentinel;
    assertionFailures 0 models the initially absent (undefined, falsy)
    field. -/
structure StepMetrics where
  name : String
  successCount : Nat
  failureCount : Nat
  assertionFailures : Nat
  totalLatency : Nat
  minLatency : Option Nat
  maxLatency : Nat

/-- The FlowLoader metrics object.  successCount, failureCount and
    assertionFailures at this level count flows; the run resets the
    first two to 0 before the loop and they start at 0 here.
    minLatency and minFlowTime use none for the Infinity sentinel. -/
structure FlowMetrics where
  flowMetrics : List StepMetrics
  totalLatency : Nat
  minLatency : Option Nat
  maxLatency : Nat
  totalFlowTime : Nat
  minFlowTime : Option Nat
  maxFlowTime : Nat
  successCount : Nat
  failureCount : Nat
  assertionFailures : Nat

/-- The metrics entry created for one step at construction: step name
    defaults (JS or-else, so an empty name string also defaults). -/
def initStepMetrics (idx : Nat) (step : Step) : StepMetrics :=
  { name := match step.name with
            | some n => if n.isEmpty then "Step " ++ toString (idx + 1) else n
            | none => "Step " ++ toString (idx + 1),
    successCount := 0, failureCount := 0, assertionFailures := 0,
    totalLatency := 0, minLatency := none, maxLatency := 0 }

/-- The FlowLoader constructor metrics for a given flow. -/
def initFlowMetrics (flow : List Step) : FlowMetrics :=
  { flowMetrics := (flow.enum.map fun p => initStepMetrics p.1 p.2),
    totalLatency := 0, minLatency := none, maxLatency := 0,
    totalFlowTime := 0, minFlowTime := none, maxFlowTime := 0,
    successCount := 0, failureCount := 0, assertionFailures := 0 }

/-- Placeholder entry; update sites are only reached with an in-range
    index (the flow loop iterates indices below the flow length, which
    equals the metrics list length). -/
def emptyStepMetrics : StepMetrics :=
  { name := "", successCount := 0, failureCount := 0, assertionFailures := 0,
    totalLatency := 0, minLatency := none, maxLatency := 0 }

/-- In-place update of this.metrics.flowMetrics[stepIndex]. -/
def updateStepMetrics (m : FlowMetrics) (i : Nat) (f : StepMetrics → StepMetrics) :
    FlowMetrics :=
  { m with flowMetrics := m.flowMetrics.set i (f ((m.flowMetrics[i]?).getD emptyStepMetrics)) }

/-- Math.min against the Infinity sentinel. -/
def jsMinOpt (m : Option Nat) (x : Nat) : Option Nat :=
  some (match m with
        | none => x
        | some v => min v x)

/-- What makeRequest returns to executeFlow.  Fields that the error
    branch leaves undefined are none there. -/
structure StepResult where
  success : Bool
  data : Option JSVal
  latency : Nat
  statusCode : Option Int
  headers : Option (List (String × String))
  error : Option String
  assertionErrors : Option (List (Option String))

/-- makeRequest from flow-loader.js (flow mode).  The try block covers
    templating (whose body re-parse can throw), the transport call, the
    assertion loop (each assertion separately caught), and the metrics
    update; the catch increments the step failure count only.  On
    transport success the latency sum, min and max are updated whether
    or not the assertions passed.  The response object handed to the
    assertions carries the echoed request config, which this pipeline
    never equips with a metadata field. -/
def makeRequest (ext : JsExt) (t : TransportOutcome) (step : Step)
    (config : RequestConfig) (flowContext : Context) (m : FlowMetrics) (stepIndex : Nat) :
    StepResult × FlowMetrics :=
  let attempt : Except String RespCore := do
    let _ ← templateRequestConfig ext flowContext config
    t.result
  match attempt with
  | .error e =>
      ({ success := false, data := none, latency := t.latency,
         statusCode := none, headers := none, error := some e, assertionErrors := none },
       updateStepMetrics m stepIndex
         (fun sm => { sm with failureCount := sm.failureCount + 1 }))
  | .ok core =>
      let response : AxResponse :=
        { status := core.status, headers := core.headers, data := core.data,
          config := { metadata := none } }
      let results := (step.assertions.getD []).map
        (fun a => runAssertionCaught ext a response flowContext)
      let assertionsPassed := results.all (fun r => r.passed)
      let assertionErrors := (results.filter (fun r => !r.passed)).map (fun r => r.error)
      let m1 := updateStepMetrics m stepIndex (fun sm =>
        let sm1 := if assertionsPassed
                   then { sm with successCount := sm.successCount + 1 }
                   else { sm with failureCount := sm.failureCount + 1,
                                  assertionFailures := sm.assertionFailures + 1 }
        { sm1 with totalLatency := sm1.totalLatency + t.latency,
                   minLatency := jsMinOpt sm1.minLatency t.latency,
                   maxLatency := max sm1.maxLatency t.latency })
      ({ success := assertionsPassed, data := core.data, latency := t.latency,
         statusCode := some core.status, headers := some core.headers, error := none,
         assertionErrors := if assertionErrors.isEmpty then none else some assertionErrors },
       m1)

/-- Response headers as a JS object value for storage in the context. -/
def headersToJSVal (hs : List (String × String)) : JSVal :=
  .jobj (hs.map fun p => (p.1, some (.jstr p.2)))

/-- The full response envelope executeFlow saves under saveResponseAs:
    fields left undefined by a transport-error result stay undefined. -/
def envelope (r : StepResult) : JSVal :=
  .jobj [("data", r.data),
         ("headers", (r.headers.map headersToJSVal)),
         ("status", (r.statusCode.map .jnum))]

/-- The context writes executeFlow performs after a step that does not
    stop the flow: the body under saveAs only on success, then the full
    envelope under saveResponseAs, success or not. -/
def stepCtxUpdate (step : Step) (r : StepResult) (ctx : Context) : Context :=
  let ctx1 := if r.success then
                match step.saveAs with
                | some k => ctxSet ctx k r.data
                | none => ctx
              else ctx
  match step.saveResponseAs with
  | some k => ctxSet ctx1 k (some (envelope r))
  | none => ctx1

/-- The step loop of executeFlow, from a given step index, carrying the
    context and metrics.  Returns the executed step results in order,
    the conjunction of their success flags, the number of failed steps
    that carried assertion errors, the final context and the metrics.
    A failing step whose stopOnFailure is not literally false stops the
    iteration before any context save. -/
def execList (ext : JsExt) (ts : Nat → TransportOutcome) :
    List Step → Nat → Context → FlowMetrics →
    List StepResult × Bool × Nat × Context × FlowMetrics
  | [], _, ctx, m => ([], true, 0, ctx, m)
  | step :: rest, i, ctx, m =>
    match makeRequest ext (ts i) step (buildRequestConfig step) ctx m i with
    | (r, m1) =>
      if r.success then
        match execList ext ts rest (i+1) (stepCtxUpdate step r ctx) m1 with
        | (tr, succ, af, ctxF, mF) => (r :: tr, succ, af, ctxF, mF)
      else if step.stopOnFailure == some false then
        match execList ext ts rest (i+1) (stepCtxUpdate step r ctx) m1 with
        | (tr, _, af, ctxF, mF) =>
            (r :: tr, false, (if r.assertionErrors.isSome then 1 else 0) + af, ctxF, mF)
      else
        ([r], false, (if r.assertionErrors.isSome then 1 else 0), ctx, m1)

/-- The observable outcome of one flow execution (the trace and final
    context are exposed for specification purposes; the source keeps
    them in locals). -/
structure FlowExecOut where
  trace : List StepResult
  success : Bool
  flowTime : Nat
  assertionFailures : Nat
  finalCtx : Context

/-- executeFlow from flow-loader.js: run the steps against a fresh
    context, then fold the flow-level metrics: flow time statistics only
    on full success, otherwise the flow failure count, plus the
    flows-with-assertion-failures count.  The elapsed flow time is
    supplied by the environment (Date.now differences). -/
def executeFlow (ext : JsExt) (ts : Nat → TransportOutcome) (flow : List Step)
    (flowTime : Nat) (m : FlowMetrics) : FlowExecOut × FlowMetrics :=
  match execList ext ts flow 0 [] m with
  | (tr, succ, af, ctxF, m1) =>
    let m2 := if succ then
                { m1 with successCount := m1.successCount + 1,
                          totalFlowTime := m1.totalFlowTime + flowTime,
                          minFlowTime := jsMinOpt m1.minFlowTime flowTime,
                          maxFlowTime := max m1.maxFlowTime flowTime }
              else
                { m1 with failureCount := m1.failureCount + 1,
                          assertionFailures :=
                            m1.assertionFailures + (if af > 0 then 1 else 0) }
    ({ trace := tr, success := succ, flowTime := flowTime,
       assertionFailures := af, finalCtx := ctxF }, m2)

/-- The run loop over flow instances.  The source launches them in
    concurrency-bounded batches awaited with Promise.all; JavaScript
    executes the metric updates atomically between awaits, and all
    counter, sum, min and max folds commute, so the final metrics equal
    this sequential fold in launch order.  Flow index and per-flow
    elapsed times come from the environment oracles. -/
def runFlows (ext : JsExt) (ts : Nat → Nat → TransportOutcome) (fts : Nat → Nat)
    (flow : List Step) : Nat → Nat → FlowMetrics → FlowMetrics × List FlowExecOut
  | 0, _, m => (m, [])
  | k+1, idx, m =>
    match executeFlow ext (ts idx) flow (fts idx) m with
    | (out, m1) =>
      match runFlows ext ts fts flow k (idx+1) m1 with
      | (mF, outs) => (mF, out :: outs)

/-
  Reporting sink and run entry points.
-/

/-- One console line of the final report, carrying the values the source
    interpolates; colorization and number formatting (toFixed, percent)
    are presentation concerns of the sink.  The min latency lines carry
    the raw field, whose none value renders as the Infinity sentinel. -/
inductive ReportLine where
  | totalFlows (n : Nat)
  | successfulFlows (n : Nat)
  | failedFlows (n : Nat)
  | flowsWithAssertionFailures (n : Nat)
  | successRate (succ total : Nat)
  | minFlowTime (v : Option Nat)
  | maxFlowTime (v : Nat)
  | avgFlowTime (total succ : Nat)
  | stepHeader (name method url : String)
  | stepCounts (succ fail : Nat)
  | stepAssertionFailures (n : Nat)
  | stepMinLatency (v : Option Nat)
  | stepMaxLatency (v : Nat)
  | stepAvgLatency (total succ : Nat)
  | assertionCount (n : Nat)
  | assertionDescription (i : Nat) (d : String)
  | stTotalRequests (n : Nat)
  | stSuccessfulRequests (n : Nat)
  | stFailedRequests (n : Nat)
  | stSuccessRate (succ total : Nat)
  | stMinLatency (v : Option Nat)
  | stMaxLatency (v : Nat)
  | stAvgLatency (total succ : Nat)
deriving DecidableEq, Repr

/-- The verbose per-assertion description switch in displayResults; an
    unrecognized type leaves the description empty. -/
def describeAssertion (a : Assertion) : String :=
  match a with
  | .statusCode v => "Status code should be " ++ jsValToString v
  | .jsonPath p op v =>
      p ++ " should " ++ op ++ " " ++ (if truthyOpt v then jsToString v else "")
  | .responseTime v => "Response time should be <= " ++ toString v ++ "ms"
  | .header name v =>
      "Header '" ++ name ++ "' should " ++
        (if truthyOpt v then "equal '" ++ jsToString v ++ "'" else "exist")
  | .custom _ => "Custom assertion"
  | .unknown _ => ""

/-- The per-step block of FlowLoader displayResults: counts always,
    assertion failures if the (initially absent, so falsy-at-zero)
    counter is set, latency statistics only when at least one invocation
    was counted successful, and the verbose assertion catalogue when
    the step declares assertions. -/
def stepSection (verbose : Bool) (p : StepMetrics × Step) : List ReportLine :=
  [ReportLine.stepHeader p.1.name p.2.method p.2.url,
   ReportLine.stepCounts p.1.successCount p.1.failureCount]
  ++ (if p.1.assertionFailures ≠ 0
      then [ReportLine.stepAssertionFailures p.1.assertionFailures] else [])
  ++ (if p.1.successCount > 0
      then [ReportLine.stepMinLatency p.1.minLatency,
            ReportLine.stepMaxLatency p.1.maxLatency,
            ReportLine.stepAvgLatency p.1.totalLatency p.1.successCount]
      else [])
  ++ (match p.2.assertions with
      | some as =>
          if verbose then
            ReportLine.assertionCount as.length ::
              (as.enum.map fun q => ReportLine.assertionDescription q.1 (describeAssertion q.2))
          else []
      | none => [])

/-- displayResults of FlowLoader: flow totals, the assertion-failure
    line when the counter is truthy, flow time statistics only when some
    flow succeeded, then one block per step metrics entry paired with
    its step definition. -/
def flowDisplayResults (verbose : Bool) (flow : List Step) (m : FlowMetrics)
    (totalFlows : Nat) : List ReportLine :=
  [ReportLine.totalFlows totalFlows,
   ReportLine.successfulFlows m.successCount,
   ReportLine.failedFlows m.failureCount]
  ++ (if m.assertionFailures ≠ 0
      then [ReportLine.flowsWithAssertionFailures m.assertionFailures] else [])
  ++ [ReportLine.successRate m.successCount totalFlows]
  ++ (if m.successCount > 0
      then [ReportLine.minFlowTime m.minFlowTime,
            ReportLine.maxFlowTime m.maxFlowTime,
            ReportLine.avgFlowTime m.totalFlowTime m.successCount]
      else [])
  ++ (m.flowMetrics.zip flow).flatMap (stepSection verbose)

/-- The options object a FlowLoader is constructed with.  flow is none
    when the key is missing or not an array; number and concurrent model
    the parseInt results (none for absent or NaN). -/
structure FlowOptions where
  flow : Option (List Step)
  number : Option Nat
  concurrent : Option Nat
  verbose : Bool

/-- The observable outcome of FlowLoader run: either the validation
    abort (which executes nothing) or a completed run with the final
    metrics, the per-flow outcomes and the report handed to the sink. -/
inductive RunOutcome where
  | aborted (message : String)
  | completed (totalFlows : Nat) (metrics : FlowMetrics) (outs : List FlowExecOut)
      (report : List ReportLine)

/-- The validation failure message of run. -/
def configErrorMsg : String :=
  "Error: Flow configuration is required and must be an array of steps"

/-- parseInt or-else-default: absent and NaN map through none, and a
    parsed 0 is falsy so the JS or-else also replaces it. -/
def parseIntOr (v : Option Nat) (d : Nat) : Nat :=
  match v with
  | none => d
  | some 0 => d
  | some n => n

/-- run from flow-loader.js: validate the flow option (missing,
    non-array or empty aborts with the error message, executing
    nothing), then execute the configured number of flow instances and
    hand the final metrics to the reporting sink. -/
def flRun (ext : JsExt) (ts : Nat → Nat → TransportOutcome) (fts : Nat → Nat)
    (opts : FlowOptions) : RunOutcome :=
  match opts.flow with
  | none => .aborted configErrorMsg
  | some flow =>
    if flow.isEmpty then .aborted configErrorMsg
    else
      let totalFlows := parseIntOr opts.number 100
      match runFlows ext ts fts flow totalFlows 0 (initFlowMetrics flow) with
      | (mF, outs) =>
          .completed totalFlows mF outs (flowDisplayResults opts.verbose flow mF totalFlows)

/-- run as a promise: the body throws nothing in this model (the
    validation branch returns normally), so the promise always
    resolves; an error value here would be an unhandled rejection. -/
def flRunPromise (ext : JsExt) (ts : Nat → Nat → TransportOutcome) (fts : Nat → Nat)
    (opts : FlowOptions) : Except String RunOutcome :=
  .ok (flRun ext ts fts opts)

/-- The node process exit code determined by the run promise: a resolved
    promise exits 0, an unhandled rejection exits nonzero. -/
def nodeExitCode : Except String RunOutcome → Nat
  | .ok _ => 0
  | .error _ => 1

/-
  StressTest.js, the single-request engine.
-/

/-- The StressTest metrics object; minLatency none is Infinity. -/
structure STMetrics where
  successCount : Nat
  failureCount : Nat
  totalLatency : Nat
  minLatency : Option Nat
  maxLatency : Nat
deriving DecidableEq, Repr

/-- The StressTest constructor metrics. -/
def stInitMetrics : STMetrics :=
  { successCount := 0, failureCount := 0, totalLatency := 0,
    minLatency := none, maxLatency := 0 }

/-- makeRequest of StressTest.js: on transport success update all four
    latency statistics and the success count; on a thrown transport
    error only the failure count. -/
def stMakeRequest (t : TransportOutcome) (m : STMetrics) : STMetrics :=
  match t.result with
  | .ok _ =>
      { m with successCount := m.successCount + 1,
               totalLatency := m.totalLatency + t.latency,
               minLatency := jsMinOpt m.minLatency t.latency,
               maxLatency := max m.maxLatency t.latency }
  | .error _ => { m with failureCount := m.failureCount + 1 }

/-- The StressTest request loop (batched with Promise.all in the source;
    the metric folds commute, so the final metrics equal this sequential
    fold). -/
def stRunFrom (ts : Nat → TransportOutcome) : Nat → Nat → STMetrics → STMetrics
  | 0, _, m => m
  | k+1, i, m => stRunFrom ts k (i+1) (stMakeRequest (ts i) m)

/-- run of StressTest.js, metrics part. -/
def stRun (ts : Nat → TransportOutcome) (n : Nat) : STMetrics :=
  stRunFrom ts n 0 stInitMetrics

/-- displayResults of StressTest.js: every line is printed
    unconditionally, including the min latency line, whose field still
    holds the Infinity sentinel when no request succeeded. -/
def stDisplayResults (totalRequests : Nat) (m : STMetrics) : List ReportLine :=
  [ReportLine.stTotalRequests totalRequests,
   ReportLine.stSuccessfulRequests m.successCount,
   ReportLine.stFailedRequests m.failureCount,
   ReportLine.stSuccessRate m.successCount totalRequests,
   ReportLine.stMinLatency m.minLatency,
   ReportLine.stMaxLatency m.maxLatency,
   ReportLine.stAvgLatency m.totalLatency m.successCount]

/-
  Concrete fixtures and specification helpers used by the theorems.
-/

/-- A registered predicate returning the boolean true. -/
def f0 : CustomFnImpl := fun _ _ => .ok (some (.jbool true))

/-- A concrete external environment: the regex engine always matches,
    the Function constructor yields f0, the JSON parser rejects. -/
def ext0 : JsExt :=
  { regexTest := fun _ _ => .ok true,
    compileFunction := fun _ => .ok f0,
    jsonStringify := fun _ => "null",
    jsonParse := fun _ => .error "Unexpected token" }

/-- Like ext0, but the Function constructor compiles every source string
    to a predicate returning the string boom. -/
def extBoom : JsExt :=
  { ext0 with compileFunction := fun _ => .ok (fun _ _ => .ok (some (.jstr "boom"))) }

/-- A 200 response core with no headers and an undefined body. -/
def respCore0 : RespCore := { status := 200, headers := [], data := none }

/-- The corresponding response object as the step executor builds it. -/
def resp0 : AxResponse :=
  { status := 200, headers := [], data := none, config := { metadata := none } }

/-- A response whose body is an object carrying the key a with value
    JSON null. -/
def respNullA : AxResponse := { resp0 with data := some (.jobj [("a", some .jnull)]) }

/-- A successful transport outcome with a given measured latency. -/
def tOk (lat : Nat) : TransportOutcome := { result := .ok respCore0, latency := lat }

/-- A failed transport outcome. -/
def tBoom : TransportOutcome := { result := .error "boom", latency := 3 }

/-- A minimal step carrying the given assertions. -/
def mkStep (as : Option (List Assertion)) : Step :=
  { name := none, method := "GET", url := "http://x", headers := none, data := none,
    assertions := as, saveAs := none, saveResponseAs := none, stopOnFailure := none }

/-- A step with no assertions. -/
def stepPlain : Step := mkStep none

/-- A step whose single assertion fails on an empty body. -/
def stepExistsFail : Step := mkStep (some [.jsonPath "x" "exists" none])

/-- A step with a single responseTime assertion, threshold 1000 ms. -/
def stepRT : Step := mkStep (some [.responseTime 1000])

/-- The failing step with stopOnFailure explicitly false. -/
def step2Fail : Step := { stepExistsFail with stopOnFailure := some false }

/-- A step saving the full response envelope under the key r. -/
def stepSR : Step := { stepPlain with saveResponseAs := some "r" }

/-- A three step flow whose middle step fails with stopOnFailure
    false. -/
def flow3 : List Step := [stepPlain, step2Fail, stepPlain]

/-- A transport oracle succeeding everywhere with latency 1. -/
def tsOk1 : Nat → TransportOutcome := fun _ => tOk 1

/-- A transport oracle failing everywhere. -/
def tsBoom : Nat → TransportOutcome := fun _ => tBoom

/-- Options with the flow key missing (or not an array). -/
def optsNoFlow : FlowOptions :=
  { flow := none, number := none, concurrent := none, verbose := false }

/-- Options with an empty flow array. -/
def optsEmptyFlow : FlowOptions :=
  { flow := some [], number := none, concurrent := none, verbose := false }

/-- The success plus failure count recorded at one step index. -/
def countsAt (m : FlowMetrics) (j : Nat) : Nat :=
  match m.flowMetrics[j]? with
  | some sm => sm.successCount + sm.failureCount
  | none => 0

/-- How many traces across the run reached step index j, that is, how
    often step j was attempted. -/
def attemptsAt (outs : List FlowExecOut) (j : Nat) : Nat :=
  (outs.map (fun o => if j < o.trace.length then 1 else 0)).sum

/-- The placeholder text for a key, as a string. -/
def placeholderOf (key : String) : String :=
  String.mk (lb :: lb :: key.data ++ [rb, rb])

/-- The context of the Bearer example. -/
def ctxAuth : Context := [("auth", some (.jobj [("token", some (.jstr "abc"))]))]

/-
  Theorems.  Shared helper lemmas first, then one theorem per claim
  (with its witness or counterexample).
-/

theorem string_mk_data (s : String) : String.mk s.data = s := by
  cases s
  rfl

theorem scanKey_complete (k t : List Char) (hk : k ≠ [])
    (hmem : ∀ c ∈ k, (c == rb) = false) :
    scanKey (k ++ rb :: rb :: t) = some (k, t) := by
  induction k with
  | nil => exact absurd rfl hk
  | cons c k ih =>
    cases k with
    | nil =>
      have hc : (c == rb) = false := hmem c (by simp)
      simp [scanKey, hc]
    | cons c' k' =>
      have hc : (c == rb) = false := hmem c (by simp)
      have hc' : (c' == rb) = false := hmem c' (by simp)
      have ihh : scanKey ((c' :: k') ++ rb :: rb :: t) = some (c' :: k', t) :=
        ih (by simp) (fun x hx => hmem x (List.mem_cons_of_mem c hx))
      simp only [List.cons_append] at ihh ⊢
      simp [scanKey, hc, hc', ihh]

theorem replace_single_placeholder (ctx : Context) (key : String)
    (hk : key.data ≠ []) (hmem : ∀ c ∈ key.data, (c == rb) = false) :
    replaceTemplateValues (placeholderOf key) ctx =
      match resolvePlaceholder ctx key with
      | some s => s
      | none => placeholderOf key := by
  obtain ⟨kd⟩ := key
  simp only [String.data] at hk hmem
  have hsk : scanKey (kd ++ [rb, rb]) = some (kd, []) := scanKey_complete kd [] hk hmem
  have hlen : (lb :: lb :: kd ++ [rb, rb]).length = kd.length + 3 + 1 := by
    simp [List.length_append]
  simp only [replaceTemplateValues, placeholderOf, String.data, hlen]
  rw [scanTemplateF.eq_def]
  simp only [beq_self_eq_true, if_true, hsk, List.cons.injEq, reduceCtorEq]
  simp [hsk]
  have h0 : scanTemplateF ctx (kd.length + 3) [] = [] := by
    rw [show kd.length + 3 = (kd.length + 2) + 1 from rfl, scanTemplateF.eq_def]
  rw [h0, List.append_nil, replacementChars]
  cases hr : resolvePlaceholder ctx (String.mk kd) with
  | some s => simp [string_mk_data, hr]
  | none => simp [hr]

/-- C7 counterexample: for the input string consisting of the single
    placeholder over key a and a context in which a holds JSON null, the
    walk encounters the value null, yet the output is the string null
    rather than the untouched placeholder text: the replacer returns the
    final null and String.prototype.replace coerces it. -/
theorem template_null_leaf_substituted :
    replaceTemplateValues "\x7b\x7ba\x7d\x7d" [("a", some .jnull)] = "null" ∧
    ("null" : String) ≠ "\x7b\x7ba\x7d\x7d" := by
  exact ⟨by decide, by decide⟩

/-- C7 (amended): the Template Resolver replaces each placeholder with
    the value reached by successive lookups; a missing segment, an
    intermediate null or undefined, or a final undefined leaves the
    placeholder text unchanged, while a final null is substituted as the
    string null.  Includes the two specification examples and a
    two-placeholder input, plus the general single-placeholder law. -/
theorem template_resolution_policy :
    (replaceTemplateValues "Bearer \x7b\x7bauth.token\x7d\x7d" ctxAuth = "Bearer abc")
  ∧ (replaceTemplateValues "\x7b\x7bmissing.key\x7d\x7d" [] = "\x7b\x7bmissing.key\x7d\x7d")
  ∧ (replaceTemplateValues "A \x7b\x7bx\x7d\x7d B \x7b\x7by\x7d\x7d"
       [("x", some (.jstr "1"))] = "A 1 B \x7b\x7by\x7d\x7d")
  ∧ (∀ (ctx : Context) (key : String), key.data ≠ [] →
       (∀ c ∈ key.data, (c == rb) = false) →
       replaceTemplateValues (placeholderOf key) ctx =
         match resolvePlaceholder ctx key with
         | some s => s
         | none => placeholderOf key)
  ∧ (∀ (ctx : Context) (key : String), key.data ≠ [] →
       (∀ c ∈ key.data, (c == rb) = false) →
       templWalk (some (.jobj ctx)) (splitPath key) = some (some .jnull) →
       replaceTemplateValues (placeholderOf key) ctx = "null") := by
  refine ⟨by decide, by decide, by decide, replace_single_placeholder, ?_⟩
  intro ctx key hk hmem hnull
  rw [replace_single_placeholder ctx key hk hmem]
  simp [resolvePlaceholder, hnull, jsValToString]

/-- C7 witness: the general law applied at the key zz over the empty
    context keeps the placeholder unchanged. -/
theorem template_resolution_policy_witness :
    replaceTemplateValues (placeholderOf "zz") [] = placeholderOf "zz" := by
  have h := template_resolution_policy.2.2.2.1 [] "zz" (by decide) (by decide)
  simpa using h

/-- C6 counterexample: with an empty flow array the run aborts with the
    user-visible message, but run returns normally (the promise
    resolves), so the process exit code is 0, not nonzero as claimed. -/
theorem config_error_exit_code_zero :
    flRun ext0 (fun _ _ => tBoom) (fun _ => 0) optsEmptyFlow = .aborted configErrorMsg ∧
    nodeExitCode (flRunPromise ext0 (fun _ _ => tBoom) (fun _ => 0) optsEmptyFlow) = 0 := by
  exact ⟨rfl, rfl⟩

/-- C6 (amended): a missing, non-array or empty flow configuration
    aborts the run before any step executes, with the user-visible error
    message; however the run function returns normally instead of
    signalling failure, so the process terminates with exit code 0. -/
theorem config_validation_aborts (ext : JsExt) (ts : Nat → Nat → TransportOutcome)
    (fts : Nat → Nat) (opts : FlowOptions)
    (h : opts.flow = none ∨ opts.flow = some ([] : List Step)) :
    flRun ext ts fts opts = .aborted configErrorMsg ∧
    flRunPromise ext ts fts opts = .ok (.aborted configErrorMsg) ∧
    nodeExitCode (flRunPromise ext ts fts opts) = 0 := by
  rcases h with h | h <;>
    simp [flRun, flRunPromise, nodeExitCode, h, List.isEmpty]

/-- C6 witness: the amended theorem applied to options whose flow key is
    missing. -/
theorem config_validation_aborts_witness :
    flRun ext0 (fun _ _ => tBoom) (fun _ => 0) optsNoFlow = .aborted configErrorMsg := by
  exact (config_validation_aborts ext0 (fun _ _ => tBoom) (fun _ => 0) optsNoFlow
    (Or.inl rfl)).1

/-- C1 counterexample: a Custom assertion whose predicate is the same
    configuration string evaluates differently under two environments
    that differ only in what the Function constructor compiles the
    string to, so the evaluation result does depend on executing the
    caller-supplied source text at evaluation time. -/
theorem custom_string_predicate_runs_compiled_source :
    runAssertion ext0 (.custom (.src "return true")) resp0 [] =
      .ok { passed := true, error := none } ∧
    runAssertion extBoom (.custom (.src "return true")) resp0 [] =
      .ok { passed := false, error := some "boom" } := by
  exact ⟨rfl, rfl⟩

/-- C1 (amended): a Custom assertion given a function reference
    delegates to it, independently of the Function constructor; a Custom
    assertion given a string compiles that string with new Function at
    evaluation time and then behaves exactly as the compiled function,
    and a compilation failure is caught into a failed assertion. -/
theorem custom_predicate_dispatch (ext : JsExt) (resp : AxResponse) (ctx : Context)
    (s : String) :
    (∀ (g : String → Except String CustomFnImpl) (f : CustomFnImpl),
       runAssertion { ext with compileFunction := g } (.custom (.ref f)) resp ctx =
         runAssertion ext (.custom (.ref f)) resp ctx)
  ∧ (∀ e, ext.compileFunction s = .error e →
       runAssertion ext (.custom (.src s)) resp ctx =
         .ok { passed := false, error := some ("Custom assertion error: " ++ e) })
  ∧ (∀ f, ext.compileFunction s = .ok f →
       runAssertion ext (.custom (.src s)) resp ctx =
         runAssertion ext (.custom (.ref f)) resp ctx) := by
  refine ⟨fun g f => rfl, fun e he => ?_, fun f hf => ?_⟩
  · simp [runAssertion, he, Bind.bind, Except.bind, Pure.pure, Except.pure]
  · simp [runAssertion, hf, Bind.bind, Except.bind, Pure.pure, Except.pure]

/-- C1 witness: with the concrete environment ext0, whose Function
    constructor yields f0, evaluating the string form equals evaluating
    the reference form of f0. -/
theorem custom_predicate_dispatch_witness :
    runAssertion ext0 (.custom (.src "return true")) resp0 [] =
      runAssertion ext0 (.custom (.ref f0)) resp0 [] := by
  exact (custom_predicate_dispatch ext0 resp0 [] "return true").2.2 f0 rfl

/-- C2 counterexample: for a body in which the path a is present with
    value JSON null, the lookup yields null (not the undefined
    sentinel), yet the exists operator fails and the notExists operator
    passes: the operators conflate null with absence. -/
theorem jsonPath_null_conflated_with_absence :
    getValueByPath respNullA.data "a" = some .jnull ∧
    runAssertion ext0 (.jsonPath "a" "exists" none) respNullA [] =
      .ok { passed := false, error := some "Expected a to exist" } ∧
    runAssertion ext0 (.jsonPath "a" "notExists" none) respNullA [] =
      .ok { passed := true, error := none } := by
  exact ⟨rfl, rfl, rfl⟩

/-- C2 (amended): dotted-path lookup returns undefined for a missing
    path, which is distinct from JSON null; however the exists operator
    passes exactly when the extracted value is neither undefined nor
    null, and notExists is its negation, so a present null is treated
    like absence. -/
theorem jsonPath_existence_semantics (ext : JsExt) (resp : AxResponse) (ctx : Context)
    (path : String) (av : Option JSVal) :
    (runAssertion ext (.jsonPath path "exists" av) resp ctx =
       .ok { passed := jsExistsCheck (getValueByPath resp.data path),
             error := if jsExistsCheck (getValueByPath resp.data path) then none
                      else some ("Expected " ++ path ++ " to exist") })
  ∧ (runAssertion ext (.jsonPath path "notExists" av) resp ctx =
       .ok { passed := !jsExistsCheck (getValueByPath resp.data path),
             error := if jsExistsCheck (getValueByPath resp.data path)
                      then some ("Expected " ++ path ++ " to not exist") else none })
  ∧ (getValueByPath resp.data path = some .jnull →
       jsExistsCheck (getValueByPath resp.data path) = false)
  ∧ (getValueByPath resp.data path = none →
       jsExistsCheck (getValueByPath resp.data path) = false)
  ∧ (∀ v, getValueByPath resp.data path = some v → v ≠ .jnull →
       jsExistsCheck (getValueByPath resp.data path) = true)
  ∧ (∀ (fields : List (String × Option JSVal)) (k : String), splitPath k = [k] →
       getValueByPath (some (.jobj fields)) k =
         match fields.find? (fun p => p.1 == k) with
         | some p => p.2
         | none => none) := by
  refine ⟨rfl, rfl, ?_, ?_, ?_, ?_⟩
  · intro h
    simp [jsExistsCheck, h, isNullV]
  · intro h
    simp [jsExistsCheck, h, isNullV]
  · intro v h hv
    cases v <;> simp_all [jsExistsCheck, isNullV]
  · intro fields k hk
    simp [getValueByPath, hk, getProp]

/-- C2 witness: for the body with a present non-null value the exists
    operator passes; instantiates the amended theorem at a concrete
    input. -/
theorem jsonPath_existence_semantics_witness :
    jsExistsCheck (getValueByPath (some (.jobj [("a", some (.jstr "v"))])) "a") = true := by
  exact (jsonPath_existence_semantics ext0
    { resp0 with data := some (.jobj [("a", some (.jstr "v"))]) } [] "a" none).2.2.2.2.1
    (.jstr "v") rfl (by simp)

/-- C3 counterexample: a responseTime assertion with threshold 1000 ms
    on a step whose transport call measured 5 ms fails (the claim says
    it passes, since 5 is at most 1000): the evaluator reads
    response.config.metadata.responseTime, which this pipeline never
    attaches, so the read throws and is caught as a failed assertion. -/
theorem responseTime_ignores_measured_latency :
    (5 : Nat) ≤ 1000 ∧
    (makeRequest ext0 (tOk 5) stepRT (buildRequestConfig stepRT) []
       (initFlowMetrics [stepRT]) 0).1.success = false ∧
    (makeRequest ext0 (tOk 5) stepRT (buildRequestConfig stepRT) []
       (initFlowMetrics [stepRT]) 0).1.assertionErrors =
      some [some "Assertion error: Cannot read properties of undefined (reading 'responseTime')"] := by
  exact ⟨by decide, rfl, rfl⟩

/-- C3 (amended): the responseTime assertion derives its compared value
    from the response object (response.config.metadata.responseTime)
    and receives no measured latency input; since the step executor
    never attaches metadata to the request config it passes to the
    transport, every responseTime assertion evaluated through
    makeRequest throws on the metadata read, is caught, and fails the
    step, independently of the measured latency and the threshold. -/
theorem responseTime_reads_response_metadata (ext : JsExt) (ctx : Context) (th : Int) :
    (∀ resp : AxResponse, resp.config.metadata = none →
       runAssertion ext (.responseTime th) resp ctx =
         .error "Cannot read properties of undefined (reading 'responseTime')")
  ∧ (∀ (resp : AxResponse) (md : AxMetadata), resp.config.metadata = some md →
       runAssertion ext (.responseTime th) resp ctx =
         .ok { passed := jsNumOptLe md.responseTime th,
               error := if jsNumOptGt md.responseTime th
                        then some ("Response time " ++ jsNumOptToString md.responseTime
                                   ++ "ms exceeded threshold " ++ toString th ++ "ms")
                        else none })
  ∧ (∀ (t : TransportOutcome) (step : Step) (cfg : RequestConfig) (m : FlowMetrics) (i : Nat),
       step.assertions = some [.responseTime th] →
       (makeRequest ext t step cfg ctx m i).1.success = false) := by
  refine ⟨?_, ?_, ?_⟩
  · intro resp h
    simp [runAssertion, h]
  · intro resp md h
    simp [runAssertion, h, Pure.pure, Except.pure]
  · intro t step cfg m i ha
    unfold makeRequest
    cases htc : templateRequestConfig ext ctx cfg with
    | error e => simp [Bind.bind, Except.bind, htc]
    | ok rc =>
      cases ht : t.result with
      | error e => simp [Bind.bind, Except.bind, htc, ht]
      | ok core =>
        simp [Bind.bind, Except.bind, htc, ht, ha, runAssertionCaught, runAssertion]

/-- C3 witness: the metadata-read law applied to the response the step
    executor builds (metadata absent). -/
theorem responseTime_reads_response_metadata_witness :
    runAssertion ext0 (.responseTime 1000) resp0 [] =
      .error "Cannot read properties of undefined (reading 'responseTime')" := by
  exact (responseTime_reads_response_metadata ext0 [] 1000).1 resp0 rfl

theorem optIntLt_excludes (x y : Option Int) :
    optIntLt x y = true → optIntLe y x = false := by
  rcases x with _ | a <;> rcases y with _ | b <;> simp [optIntLt, optIntLe] <;> omega

theorem jsGt_excludes_le (a b : Option JSVal) : jsGtB a b = true → jsLeB a b = false := by
  intro h
  rcases a with _ | va <;> rcases b with _ | vb <;>
    [skip; skip; skip; (cases va <;> cases vb)] <;> revert h <;>
    simp only [jsGtB, jsLtB, jsLeB] <;>
    first
      | exact optIntLt_excludes _ _
      | simp

theorem jsLt_excludes_ge (a b : Option JSVal) : jsLtB a b = true → jsGeB a b = false := by
  intro h
  rcases a with _ | va <;> rcases b with _ | vb <;>
    [skip; skip; skip; (cases va <;> cases vb)] <;> revert h <;>
    simp only [jsGtB, jsLtB, jsLeB, jsGeB] <;>
    first
      | exact optIntLt_excludes _ _
      | simp

theorem jsNumOptLe_excludes_gt (x : Option Int) (th : Int) :
    jsNumOptLe x th = true → jsNumOptGt x th = false := by
  rcases x with _ | a <;> simp [jsNumOptLe, jsNumOptGt]

theorem evalJsonPathOp_ok_passed (ext : JsExt) (p op : String) (av w : Option JSVal)
    (r : AssertionResult) (h : evalJsonPathOp ext p op av w = .ok r)
    (hp : r.passed = true) : r.error = none := by
  unfold evalJsonPathOp at h
  split at h
  · simp [Pure.pure, Except.pure] at h
    subst h
    cases hc : strictEq w av <;> simp_all
  · simp [Pure.pure, Except.pure] at h
    subst h
    cases hc : jsContains w av <;> simp_all
  · simp [Pure.pure, Except.pure] at h
    subst h
    cases hc : jsExistsCheck w <;> simp_all
  · simp [Pure.pure, Except.pure] at h
    subst h
    cases hc : jsExistsCheck w <;> simp_all
  · simp [Pure.pure, Except.pure] at h
    subst h
    simp_all [jsGt_excludes_le _ _ hp]
  · simp [Pure.pure, Except.pure] at h
    subst h
    simp_all [jsLt_excludes_ge _ _ hp]
  · cases hre : ext.regexTest av (jsToString w) with
    | ok b =>
      simp [hre, Bind.bind, Except.bind, Pure.pure, Except.pure] at h
      subst h
      cases b <;> simp_all
    | error e =>
      simp [hre, Bind.bind, Except.bind] at h
  · simp [Pure.pure, Except.pure] at h
    subst h
    simp_all

theorem runAssertion_ok_passed (ext : JsExt) (a : Assertion) (resp : AxResponse)
    (ctx : Context) (r : AssertionResult) (h : runAssertion ext a resp ctx = .ok r)
    (hp : r.passed = true) : r.error = none := by
  cases a with
  | statusCode v =>
    simp [runAssertion, Pure.pure, Except.pure] at h
    subst h
    cases hc : strictEq (some (.jnum resp.status)) (some v) <;> simp_all
  | jsonPath p op av =>
    simp only [runAssertion] at h
    cases hev : evalJsonPathOp ext p op av (getValueByPath resp.data p) with
    | ok r' =>
      rw [hev] at h
      simp [Pure.pure, Except.pure] at h
      subst h
      exact evalJsonPathOp_ok_passed ext p op av _ r' hev hp
    | error e =>
      rw [hev] at h
      simp [Pure.pure, Except.pure] at h
      subst h
      simp_all
  | responseTime th =>
    cases hm : resp.config.metadata with
    | none => simp [runAssertion, hm] at h
    | some md =>
      simp [runAssertion, hm, Pure.pure, Except.pure] at h
      subst h
      simp_all [jsNumOptLe_excludes_gt _ _ hp]
  | header name av =>
    simp [runAssertion, Pure.pure, Except.pure] at h
    subst h
    cases ht : truthyOpt av
    · cases hc : ((resp.headers.find? (fun p => p.1 == name)).map (fun p => p.2)).isSome <;>
        simp_all
      obtain ⟨x, hx⟩ := hp
      exact hc _ _ hx rfl
    · cases hc : strictEq
          (((resp.headers.find? (fun p => p.1 == name)).map (fun p => p.2)).map .jstr) av <;>
        simp_all
  | custom fn =>
    cases fn with
    | ref f =>
      simp only [runAssertion] at h
      cases hat : f resp ctx with
      | ok result =>
        simp [hat, Bind.bind, Except.bind, Pure.pure, Except.pure] at h
        subst h
        cases hc : isStrictTrue result <;> simp_all
      | error e =>
        simp [hat, Bind.bind, Except.bind, Pure.pure, Except.pure] at h
        subst h
        simp_all
    | src s =>
      cases hcf : ext.compileFunction s with
      | error e =>
        simp only [runAssertion] at h
        simp [hcf, Bind.bind, Except.bind, Pure.pure, Except.pure] at h
        subst h
        simp_all
      | ok f =>
        simp only [runAssertion] at h
        cases hat : f resp ctx with
        | ok result =>
          simp [hcf, hat, Bind.bind, Except.bind, Pure.pure, Except.pure] at h
          subst h
          cases hc : isStrictTrue result <;> simp_all
        | error e =>
          simp [hcf, hat, Bind.bind, Except.bind, Pure.pure, Except.pure] at h
          subst h
          simp_all
  | unknown t =>
    simp [runAssertion, Pure.pure, Except.pure] at h
    subst h
    simp_all

/-- C4: the assertion evaluator, as invoked by the step executor with
    its per-assertion catch, always yields a passed/error result object:
    a thrown evaluator error is converted into a failed assertion whose
    reason carries the message, an ok result is passed through, a
    passing result never carries an error reason, and unknown assertion
    kinds and unknown jsonPath operators fail with a descriptive
    reason. -/
theorem assertion_evaluator_total (ext : JsExt) (a : Assertion) (resp : AxResponse)
    (ctx : Context) :
    (∀ e, runAssertion ext a resp ctx = .error e →
       runAssertionCaught ext a resp ctx =
         { passed := false, error := some ("Assertion error: " ++ e) })
  ∧ (∀ r, runAssertion ext a resp ctx = .ok r → runAssertionCaught ext a resp ctx = r)
  ∧ ((runAssertionCaught ext a resp ctx).passed = true →
       (runAssertionCaught ext a resp ctx).error = none)
  ∧ (∀ t, a = .unknown t →
       runAssertionCaught ext a resp ctx =
         { passed := false, error := some ("Unknown assertion type: " ++ t) })
  ∧ (∀ p op v, a = .jsonPath p op v → op ∉ knownOps →
       runAssertionCaught ext a resp ctx =
         { passed := false, error := some ("Unknown operator: " ++ op) }) := by
  refine ⟨?_, ?_, ?_, ?_, ?_⟩
  · intro e he
    simp [runAssertionCaught, he]
  · intro r hr
    simp [runAssertionCaught, hr]
  · intro hp
    unfold runAssertionCaught at hp ⊢
    cases hra : runAssertion ext a resp ctx with
    | ok r =>
      rw [hra] at hp
      have hp' : r.passed = true := by simpa using hp
      have hres := runAssertion_ok_passed ext a resp ctx r hra hp'
      simpa using hres
    | error e =>
      rw [hra] at hp
      simp at hp
  · intro t ht
    subst ht
    rfl
  · intro p op v hpv hop
    subst hpv
    have hev : evalJsonPathOp ext p op v (getValueByPath resp.data p) =
        .ok { passed := false, error := some ("Unknown operator: " ++ op) } := by
      unfold evalJsonPathOp
      split <;> simp_all [knownOps, Pure.pure, Except.pure]
    simp [runAssertionCaught, runAssertion, hev, Pure.pure, Except.pure]

/-- C4 witness: an unknown assertion kind at a concrete input fails with
    the descriptive reason. -/
theorem assertion_evaluator_total_witness :
    runAssertionCaught ext0 (.unknown "weird") resp0 [] =
      { passed := false, error := some ("Unknown assertion type: " ++ "weird") } := by
  exact (assertion_evaluator_total ext0 (.unknown "weird") resp0 []).2.2.2.1 "weird" rfl

theorem countsAt_updateStepMetrics (m : FlowMetrics) (i : Nat) (f : StepMetrics → StepMetrics)
    (hi : i < m.flowMetrics.length)
    (hf : ∀ sm, (f sm).successCount + (f sm).failureCount
            = sm.successCount + sm.failureCount + 1)
    (j : Nat) :
    countsAt (updateStepMetrics m i f) j = countsAt m j + (if j = i then 1 else 0) := by
  unfold countsAt updateStepMetrics
  by_cases hji : j = i
  · subst hji
    have hg : m.flowMetrics[j]? = some m.flowMetrics[j] := List.getElem?_eq_getElem hi
    rw [List.getElem?_set_eq_of_lt _ hi, hg]
    simp [hf]
  · rw [List.getElem?_set_ne (fun hh => hji hh.symm)]
    simp [hji]

theorem updateStepMetrics_len (m : FlowMetrics) (i : Nat) (f : StepMetrics → StepMetrics) :
    (updateStepMetrics m i f).flowMetrics.length = m.flowMetrics.length := by
  simp [updateStepMetrics]

theorem makeRequest_len (ext : JsExt) (t : TransportOutcome) (step : Step)
    (cfg : RequestConfig) (ctx : Context) (m : FlowMetrics) (i : Nat) :
    ((makeRequest ext t step cfg ctx m i).2).flowMetrics.length = m.flowMetrics.length := by
  simp only [makeRequest]
  split <;> simp [updateStepMetrics]

theorem makeRequest_countsAt (ext : JsExt) (t : TransportOutcome) (step : Step)
    (cfg : RequestConfig) (ctx : Context) (m : FlowMetrics) (i : Nat)
    (hi : i < m.flowMetrics.length) (j : Nat) :
    countsAt (makeRequest ext t step cfg ctx m i).2 j
      = countsAt m j + (if j = i then 1 else 0) := by
  simp only [makeRequest]
  split
  · apply countsAt_updateStepMetrics _ _ _ hi
    intro sm
    simp
    omega
  · apply countsAt_updateStepMetrics _ _ _ hi
    intro sm
    split <;> simp <;> omega

theorem execList_len (ext : JsExt) (ts : Nat → TransportOutcome) (ss : List Step) :
    ∀ (i : Nat) (ctx : Context) (m : FlowMetrics),
    ((execList ext ts ss i ctx m).2.2.2.2).flowMetrics.length = m.flowMetrics.length := by
  induction ss with
  | nil => intro i ctx m; rfl
  | cons step rest ih =>
    intro i ctx m
    rcases hmr : makeRequest ext (ts i) step (buildRequestConfig step) ctx m i with ⟨r, m1⟩
    have hlen : m1.flowMetrics.length = m.flowMetrics.length := by
      have h := makeRequest_len ext (ts i) step (buildRequestConfig step) ctx m i
      rw [hmr] at h
      exact h
    rcases hrec : execList ext ts rest (i+1) (stepCtxUpdate step r ctx) m1 with
      ⟨tr, succ, af, ctxF, mF⟩
    have h2 := ih (i+1) (stepCtxUpdate step r ctx) m1
    rw [hrec] at h2
    simp only at h2
    cases hs : r.success
    · cases hstop : step.stopOnFailure == some false
      · simp [execList, hmr, hs, hstop, hlen]
      · simp [execList, hmr, hs, hstop, hrec]
        all_goals omega
    · simp [execList, hmr, hs, hrec]
      all_goals omega

theorem execList_countsAt (ext : JsExt) (ts : Nat → TransportOutcome) (ss : List Step) :
    ∀ (i : Nat) (ctx : Context) (m : FlowMetrics) (j : Nat),
    i + ss.length ≤ m.flowMetrics.length →
    countsAt ((execList ext ts ss i ctx m).2.2.2.2) j
      = countsAt m j +
        (if i ≤ j ∧ j < i + ((execList ext ts ss i ctx m).1).length then 1 else 0) := by
  induction ss with
  | nil =>
    intro i ctx m j hle
    simp [execList]
  | cons step rest ih =>
    intro i ctx m j hle
    rcases hmr : makeRequest ext (ts i) step (buildRequestConfig step) ctx m i with ⟨r, m1⟩
    have hi : i < m.flowMetrics.length := by
      simp at hle
      omega
    have hc1 : countsAt m1 j = countsAt m j + (if j = i then 1 else 0) := by
      have h := makeRequest_countsAt ext (ts i) step (buildRequestConfig step) ctx m i hi j
      rw [hmr] at h
      exact h
    have hlen : m1.flowMetrics.length = m.flowMetrics.length := by
      have h := makeRequest_len ext (ts i) step (buildRequestConfig step) ctx m i
      rw [hmr] at h
      exact h
    rcases hrec : execList ext ts rest (i+1) (stepCtxUpdate step r ctx) m1 with
      ⟨tr, succ, af, ctxF, mF⟩
    have h2 := ih (i+1) (stepCtxUpdate step r ctx) m1 j
      (by rw [hlen]; simp at hle ⊢; omega)
    rw [hrec] at h2
    simp only at h2
    rw [hc1] at h2
    cases hs : r.success
    · cases hstop : step.stopOnFailure == some false
      · simp only [execList, hmr, hs, hstop]
        simp only [Bool.false_eq_true, if_false]
        rw [hc1]
        simp only [List.length_cons, List.length_nil]
        split_ifs <;> omega
      · simp only [execList, hmr, hs, hstop]
        simp only [Bool.false_eq_true, if_false, if_true]
        simp only [hrec]
        rw [h2]
        simp only [List.length_cons]
        split_ifs <;> omega
    · simp only [execList, hmr, hs, if_true]
      simp only [hrec]
      rw [h2]
      simp only [List.length_cons]
      split_ifs <;> omega

theorem executeFlow_countsAt (ext : JsExt) (ts : Nat → TransportOutcome) (flow : List Step)
    (ftime : Nat) (m : FlowMetrics) (j : Nat)
    (hle : flow.length ≤ m.flowMetrics.length) :
    countsAt (executeFlow ext ts flow ftime m).2 j
      = countsAt m j +
        (if j < ((executeFlow ext ts flow ftime m).1).trace.length then 1 else 0) ∧
    ((executeFlow ext ts flow ftime m).2).flowMetrics.length = m.flowMetrics.length := by
  have h1 := execList_countsAt ext ts flow 0 [] m j (by omega)
  have h2 := execList_len ext ts flow 0 [] m
  rcases hel : execList ext ts flow 0 [] m with ⟨tr, succ, af, ctxF, m1⟩
  rw [hel] at h1 h2
  simp only at h1 h2
  have h1' : countsAt m1 j = countsAt m j + (if j < tr.length then 1 else 0) := by
    rw [h1]
    congr 1
    split_ifs <;> simp_all <;> omega
  simp only [executeFlow, hel]
  cases hs : succ
  · exact ⟨by simpa [countsAt] using h1', h2⟩
  · exact ⟨by simpa [countsAt] using h1', h2⟩

theorem runFlows_countsAt (ext : JsExt) (ts : Nat → Nat → TransportOutcome)
    (fts : Nat → Nat) (flow : List Step) :
    ∀ (n idx : Nat) (m : FlowMetrics) (j : Nat),
    flow.length ≤ m.flowMetrics.length →
    countsAt (runFlows ext ts fts flow n idx m).1 j
      = countsAt m j + attemptsAt (runFlows ext ts fts flow n idx m).2 j := by
  intro n
  induction n with
  | zero =>
    intro idx m j hle
    simp [runFlows, attemptsAt]
  | succ k ih =>
    intro idx m j hle
    have hef := executeFlow_countsAt ext (ts idx) flow (fts idx) m j hle
    rcases he : executeFlow ext (ts idx) flow (fts idx) m with ⟨out, m1⟩
    rw [he] at hef
    simp only at hef
    obtain ⟨hc, hl⟩ := hef
    have h2 := ih (idx+1) m1 j (by omega)
    rcases hrf : runFlows ext ts fts flow k (idx+1) m1 with ⟨mF, outs⟩
    rw [hrf] at h2
    simp only at h2
    simp only [runFlows, he, hrf]
    rw [h2, hc]
    simp [attemptsAt]
    omega

/-- C10: for every step index of a validly configured flow, across a
    whole run, the success count plus the failure count recorded in that
    index's positional metrics entry equals the number of times the
    index was attempted: every step-executor invocation increments
    exactly one of the two counters exactly once (transport success,
    assertion failure, or transport throw alike). -/
theorem step_counts_conservation (ext : JsExt) (ts : Nat → Nat → TransportOutcome)
    (fts : Nat → Nat) (flow : List Step) (n j : Nat) (hj : j < flow.length) :
    countsAt (runFlows ext ts fts flow n 0 (initFlowMetrics flow)).1 j
      = attemptsAt (runFlows ext ts fts flow n 0 (initFlowMetrics flow)).2 j := by
  have hlen : (initFlowMetrics flow).flowMetrics.length = flow.length := by
    simp [initFlowMetrics]
  have h0 : countsAt (initFlowMetrics flow) j = 0 := by
    unfold countsAt initFlowMetrics
    simp only [List.getElem?_map]
    cases hg : (flow.enum)[j]? <;> simp [initStepMetrics]
  have h := runFlows_countsAt ext ts fts flow n 0 (initFlowMetrics flow) j (by omega)
  rw [h0] at h
  simpa using h

/-- C10 witness: two flows of one plain step each; both counters fold to
    the two attempts of index 0. -/
theorem step_counts_conservation_witness :
    countsAt (runFlows ext0 (fun _ => tsOk1) (fun _ => 0) [stepPlain] 2 0
        (initFlowMetrics [stepPlain])).1 0
      = attemptsAt (runFlows ext0 (fun _ => tsOk1) (fun _ => 0) [stepPlain] 2 0
        (initFlowMetrics [stepPlain])).2 0 := by
  exact step_counts_conservation ext0 (fun _ => tsOk1) (fun _ => 0) [stepPlain] 2 0
    (by decide)

theorem execList_trace_spec (ext : JsExt) (ts : Nat → TransportOutcome) (ss : List Step) :
    ∀ (i : Nat) (ctx : Context) (m : FlowMetrics),
    ((execList ext ts ss i ctx m).1.length ≤ ss.length)
  ∧ (ss ≠ [] → 0 < (execList ext ts ss i ctx m).1.length)
  ∧ ((execList ext ts ss i ctx m).2.1
       = (execList ext ts ss i ctx m).1.all (fun r => r.success))
  ∧ (∀ j r s, ((execList ext ts ss i ctx m).1)[j]? = some r → r.success = false →
       ss[j]? = some s → s.stopOnFailure ≠ some false →
       (execList ext ts ss i ctx m).1.length = j + 1)
  ∧ (∀ j r, ((execList ext ts ss i ctx m).1)[j]? = some r → j + 1 < ss.length →
       (r.success = true ∨ (∃ s, ss[j]? = some s ∧ s.stopOnFailure = some false)) →
       (((execList ext ts ss i ctx m).1)[j+1]?).isSome = true) := by
  induction ss with
  | nil =>
    intro i ctx m
    refine ⟨by simp [execList], by simp, by simp [execList], ?_, ?_⟩
    · intro j r s hj hrs hss
      simp [execList] at hj
    · intro j r hj hlt
      simp [execList] at hj
  | cons step rest ih =>
    intro i ctx m
    rcases hmr : makeRequest ext (ts i) step (buildRequestConfig step) ctx m i with ⟨r, m1⟩
    rcases hrec : execList ext ts rest (i+1) (stepCtxUpdate step r ctx) m1 with
      ⟨tr, succ, af, ctxF, mF⟩
    have IH := ih (i+1) (stepCtxUpdate step r ctx) m1
    rw [hrec] at IH
    simp only at IH
    obtain ⟨ih1, ih0, ih2, ih3, ih4⟩ := IH
    cases hs : r.success
    · cases hstop : step.stopOnFailure == some false
      · have hsne : step.stopOnFailure ≠ some false := by
          intro hcontra
          rw [hcontra] at hstop
          simp at hstop
        simp only [execList, hmr, hs, hstop, Bool.false_eq_true, if_false]
        refine ⟨by simp, by simp, by simp [hs], ?_, ?_⟩
        · intro j r' s hj hrs hss hsf
          cases j with
          | zero => simp
          | succ k => simp at hj
        · intro j r' hj hlt hdisj
          cases j with
          | zero =>
            simp at hj
            subst hj
            rcases hdisj with hd | ⟨s, hss, hsf⟩
            · rw [hs] at hd
              exact absurd hd (by simp)
            · simp at hss
              subst hss
              exact absurd hsf hsne
          | succ k => simp at hj
      · simp only [execList, hmr, hs, hstop, Bool.false_eq_true, if_false, if_true, hrec]
        refine ⟨by simp; omega, by simp, by simp [hs], ?_, ?_⟩
        · intro j r' s hj hrs hss hsf
          cases j with
          | zero =>
            simp at hj
            subst hj
            simp at hss
            subst hss
            exact absurd (by simpa using hstop) hsf
          | succ k =>
            simp only [List.getElem?_cons_succ] at hj hss
            have := ih3 k r' s hj hrs hss hsf
            simp
            omega
        · intro j r' hj hlt hdisj
          cases j with
          | zero =>
            have hne : rest ≠ [] := by
              simp at hlt
              intro hc
              rw [hc] at hlt
              simp at hlt
            have hpos := ih0 hne
            simp only [List.getElem?_cons_succ]
            rw [List.getElem?_eq_getElem hpos]
            rfl
          | succ k =>
            simp only [List.getElem?_cons_succ] at hj ⊢
            apply ih4 k r' hj (by simp at hlt; omega)
            rcases hdisj with hd | ⟨s, hss2, hsf2⟩
            · exact Or.inl hd
            · simp only [List.getElem?_cons_succ] at hss2
              exact Or.inr ⟨s, hss2, hsf2⟩
    · simp only [execList, hmr, hs, if_true, hrec]
      refine ⟨by simp; omega, by simp, by simp [hs, ih2], ?_, ?_⟩
      · intro j r' s hj hrs hss hsf
        cases j with
        | zero =>
          simp at hj
          subst hj
          rw [hs] at hrs
          simp at hrs
        | succ k =>
          simp only [List.getElem?_cons_succ] at hj hss
          have := ih3 k r' s hj hrs hss hsf
          simp
          omega
      · intro j r' hj hlt hdisj
        cases j with
        | zero =>
          have hne : rest ≠ [] := by
            simp at hlt
            intro hc
            rw [hc] at hlt
            simp at hlt
          have hpos := ih0 hne
          simp only [List.getElem?_cons_succ]
          rw [List.getElem?_eq_getElem hpos]
          rfl
        | succ k =>
          simp only [List.getElem?_cons_succ] at hj ⊢
          apply ih4 k r' hj (by simp at hlt; omega)
          rcases hdisj with hd | ⟨s, hss2, hsf2⟩
          · exact Or.inl hd
          · simp only [List.getElem?_cons_succ] at hss2
            exact Or.inr ⟨s, hss2, hsf2⟩

theorem executeFlow_out (ext : JsExt) (ts : Nat → TransportOutcome) (flow : List Step)
    (ftime : Nat) (m : FlowMetrics) :
    (executeFlow ext ts flow ftime m).1.trace = (execList ext ts flow 0 [] m).1 ∧
    (executeFlow ext ts flow ftime m).1.success = (execList ext ts flow 0 [] m).2.1 ∧
    (executeFlow ext ts flow ftime m).1.finalCtx
      = (execList ext ts flow 0 [] m).2.2.2.1 := by
  simp only [executeFlow]
  rcases hel : execList ext ts flow 0 [] m with ⟨tr, succ, af, ctxF, m1⟩
  cases hs : succ <;> simp

/-- C8: a failing step stops the iteration exactly when its
    stopOnFailure is not literally false: the executed trace is a prefix
    of the flow, the flow outcome is the conjunction of the executed
    steps' success flags, a failure with stopOnFailure not false ends
    the trace at that step, a success or a failure with stopOnFailure
    false lets the next step execute, and in the concrete three-step
    flow whose second step fails with stopOnFailure false all three
    steps execute and the flow outcome is failure. -/
theorem stopOnFailure_policy (ext : JsExt) (ts : Nat → TransportOutcome) (flow : List Step)
    (ftime : Nat) (m : FlowMetrics) :
    ((executeFlow ext ts flow ftime m).1.trace.length ≤ flow.length)
  ∧ ((executeFlow ext ts flow ftime m).1.success
       = (executeFlow ext ts flow ftime m).1.trace.all (fun r => r.success))
  ∧ (∀ j r s, ((executeFlow ext ts flow ftime m).1.trace)[j]? = some r →
       r.success = false → flow[j]? = some s → s.stopOnFailure ≠ some false →
       (executeFlow ext ts flow ftime m).1.trace.length = j + 1)
  ∧ (∀ j r, ((executeFlow ext ts flow ftime m).1.trace)[j]? = some r →
       j + 1 < flow.length →
       (r.success = true ∨ (∃ s, flow[j]? = some s ∧ s.stopOnFailure = some false)) →
       (((executeFlow ext ts flow ftime m).1.trace)[j+1]?).isSome = true)
  ∧ ((executeFlow ext0 tsOk1 flow3 5 (initFlowMetrics flow3)).1.trace.length = 3
       ∧ (executeFlow ext0 tsOk1 flow3 5 (initFlowMetrics flow3)).1.success = false) := by
  obtain ⟨htr, hsu, _⟩ := executeFlow_out ext ts flow ftime m
  obtain ⟨h1, _, h2, h3, h4⟩ := execList_trace_spec ext ts flow 0 [] m
  rw [htr, hsu]
  exact ⟨h1, h2, h3, h4, rfl, rfl⟩

/-- C8 witness: a one-step flow whose step fails with default
    stopOnFailure has a trace of exactly one entry. -/
theorem stopOnFailure_policy_witness :
    (executeFlow ext0 tsOk1 [stepExistsFail] 5
        (initFlowMetrics [stepExistsFail])).1.trace.length = 1 := by
  exact (stopOnFailure_policy ext0 tsOk1 [stepExistsFail] 5
      (initFlowMetrics [stepExistsFail])).2.2.1 0 _ stepExistsFail rfl rfl rfl
    (by simp [stepExistsFail, mkStep])

theorem ctxGet_ctxSet (ctx : Context) (k : String) (v : Option JSVal) :
    ctxGet (ctxSet ctx k v) k = some v := by
  induction ctx with
  | nil => simp [ctxSet, ctxGet]
  | cons p rest ih =>
    obtain ⟨k', v'⟩ := p
    by_cases hk : k' == k
    · simp [ctxSet, ctxGet, hk]
    · simp only [ctxSet, hk, Bool.false_eq_true, if_false]
      simp only [ctxGet, List.find?] at ih ⊢
      simp only [hk]
      exact ih

/-- C9 counterexample: a one-step flow whose step declares
    saveResponseAs and fails with default stopOnFailure executes the
    step, but the early stop skips the context write, so the final
    context does not contain the key. -/
theorem saveResponseAs_skipped_on_stop :
    (executeFlow ext0 tsBoom [stepSR] 1 (initFlowMetrics [stepSR])).1.trace.length = 1 ∧
    (executeFlow ext0 tsBoom [stepSR] 1 (initFlowMetrics [stepSR])).1.finalCtx = [] := by
  exact ⟨rfl, rfl⟩

/-- C9 (amended): whenever a step that declares saveResponseAs does not
    trigger the early stop (it succeeded, or it failed with
    stopOnFailure literally false), the context passed onward holds the
    full envelope (data, headers, status fields of the step result)
    under the declared key, independently of step success; a failing
    step whose stopOnFailure is not false stops the iteration before
    the save, leaving the context untouched. -/
theorem saveResponseAs_envelope (ext : JsExt) (ts : Nat → TransportOutcome) :
    (∀ (step : Step) (r : StepResult) (ctx : Context) (k : String),
       step.saveResponseAs = some k →
       ctxGet (stepCtxUpdate step r ctx) k = some (some (envelope r)))
  ∧ (∀ (step : Step) (rest : List Step) (i : Nat) (ctx : Context) (m : FlowMetrics)
       (r : StepResult) (m1 : FlowMetrics),
       makeRequest ext (ts i) step (buildRequestConfig step) ctx m i = (r, m1) →
       r.success = false → step.stopOnFailure ≠ some false →
       execList ext ts (step :: rest) i ctx m =
         ([r], false, (if r.assertionErrors.isSome then 1 else 0), ctx, m1))
  ∧ (∀ (step : Step) (rest : List Step) (i : Nat) (ctx : Context) (m : FlowMetrics)
       (r : StepResult) (m1 : FlowMetrics),
       makeRequest ext (ts i) step (buildRequestConfig step) ctx m i = (r, m1) →
       r.success = true →
       execList ext ts (step :: rest) i ctx m =
         (r :: (execList ext ts rest (i+1) (stepCtxUpdate step r ctx) m1).1,
          (execList ext ts rest (i+1) (stepCtxUpdate step r ctx) m1).2.1,
          (execList ext ts rest (i+1) (stepCtxUpdate step r ctx) m1).2.2.1,
          (execList ext ts rest (i+1) (stepCtxUpdate step r ctx) m1).2.2.2.1,
          (execList ext ts rest (i+1) (stepCtxUpdate step r ctx) m1).2.2.2.2))
  ∧ (∀ (step : Step) (rest : List Step) (i : Nat) (ctx : Context) (m : FlowMetrics)
       (r : StepResult) (m1 : FlowMetrics),
       makeRequest ext (ts i) step (buildRequestConfig step) ctx m i = (r, m1) →
       r.success = false → step.stopOnFailure = some false →
       execList ext ts (step :: rest) i ctx m =
         (r :: (execList ext ts rest (i+1) (stepCtxUpdate step r ctx) m1).1,
          false,
          (if r.assertionErrors.isSome then 1 else 0)
            + (execList ext ts rest (i+1) (stepCtxUpdate step r ctx) m1).2.2.1,
          (execList ext ts rest (i+1) (stepCtxUpdate step r ctx) m1).2.2.2.1,
          (execList ext ts rest (i+1) (stepCtxUpdate step r ctx) m1).2.2.2.2)) := by
  refine ⟨?_, ?_, ?_, ?_⟩
  · intro step r ctx k h
    unfold stepCtxUpdate
    rw [h]
    exact ctxGet_ctxSet _ k _
  · intro step rest i ctx m r m1 hmr hs hsf
    have hstop : (step.stopOnFailure == some false) = false := by
      simpa using hsf
    simp [execList, hmr, hs, hstop]
  · intro step rest i ctx m r m1 hmr hs
    rcases hrec : execList ext ts rest (i+1) (stepCtxUpdate step r ctx) m1 with
      ⟨tr, succ, af, ctxF, mF⟩
    simp [execList, hmr, hs, hrec]
  · intro step rest i ctx m r m1 hmr hs hsf
    have hstop : (step.stopOnFailure == some false) = true := by
      simp [hsf]
    rcases hrec : execList ext ts rest (i+1) (stepCtxUpdate step r ctx) m1 with
      ⟨tr, succ, af, ctxF, mF⟩
    simp [execList, hmr, hs, hstop, hrec]

/-- C9 witness: the envelope save applied to a concrete failing step
    result under the key r. -/
theorem saveResponseAs_envelope_witness :
    ctxGet (stepCtxUpdate stepSR
      { success := false, data := none, latency := 3, statusCode := none,
        headers := none, error := some "boom", assertionErrors := none } []) "r"
      = some (some (envelope
      { success := false, data := none, latency := 3, statusCode := none,
        headers := none, error := some "boom", assertionErrors := none })) := by
  exact (saveResponseAs_envelope ext0 tsBoom).1 stepSR _ [] "r" rfl

theorem stRunFrom_all_errors (ts : Nat → TransportOutcome) :
    ∀ (k i : Nat) (m : STMetrics),
    (∀ j, j < k → ∃ e, (ts (i + j)).result = .error e) →
    stRunFrom ts k i m = { m with failureCount := m.failureCount + k } := by
  intro k
  induction k with
  | zero => intro i m h; simp [stRunFrom]
  | succ n ih =>
    intro i m h
    obtain ⟨e, he⟩ := h 0 (by omega)
    simp only [Nat.add_zero] at he
    have hrest : ∀ j, j < n → ∃ e, (ts (i + 1 + j)).result = .error e := by
      intro j hj
      have := h (j + 1) (by omega)
      simpa [Nat.add_assoc, Nat.add_comm 1 j] using this
    simp only [stRunFrom, stMakeRequest, he]
    rw [ih (i+1) _ hrest]
    simp
    omega

theorem stReport_contains_min (n : Nat) (m : STMetrics) :
    ReportLine.stMinLatency m.minLatency ∈ stDisplayResults n m ∧
    ReportLine.stMaxLatency m.maxLatency ∈ stDisplayResults n m := by
  simp [stDisplayResults]

/-- C5 counterexample: in the flow engine, an invocation whose transport
    succeeded but whose assertion failed is counted as a failure, yet
    its latency updates the step min/max (so min/max are not updated
    only on successful observations); and in the single-request engine a
    run with zero successes still reports the min latency line carrying
    the Infinity sentinel. -/
theorem latency_sentinel_counterexample :
    ((makeRequest ext0 (tOk 7) stepExistsFail (buildRequestConfig stepExistsFail) []
        (initFlowMetrics [stepExistsFail]) 0).2.flowMetrics[0]?).map
      (fun sm => (sm.successCount, sm.failureCount, sm.minLatency, sm.maxLatency))
      = some (0, 1, some 7, 7) ∧
    (stRun tsBoom 5).successCount = 0 ∧
    ReportLine.stMinLatency none ∈ stDisplayResults 5 (stRun tsBoom 5) := by
  refine ⟨rfl, rfl, ?_⟩
  have h : (stRun tsBoom 5).minLatency = none := rfl
  have hm := (stReport_contains_min 5 (stRun tsBoom 5)).1
  rw [h] at hm
  exact hm

theorem minInv_makeRequest (ext : JsExt) (t : TransportOutcome) (step : Step)
    (cfg : RequestConfig) (ctx : Context) (m : FlowMetrics) (i : Nat)
    (hm : ∀ sm ∈ m.flowMetrics, sm.successCount > 0 → sm.minLatency ≠ none) :
    ∀ sm ∈ ((makeRequest ext t step cfg ctx m i).2).flowMetrics,
      sm.successCount > 0 → sm.minLatency ≠ none := by
  intro sm hmem
  revert hmem
  simp only [makeRequest]
  split
  · dsimp only [updateStepMetrics]
    intro hmem
    rcases List.mem_or_eq_of_mem_set hmem with hmem2 | hEq
    · exact hm sm hmem2
    · subst hEq
      intro hpos
      cases hg : m.flowMetrics[i]? with
      | none => simp [hg, emptyStepMetrics] at hpos
      | some old =>
        have holdmem : old ∈ m.flowMetrics := by
          exact List.getElem?_mem hg
        have hold := hm old holdmem
        simp only [hg, Option.getD_some] at hpos ⊢
        exact hold (by simpa using hpos)
  · dsimp only [updateStepMetrics]
    intro hmem
    rcases List.mem_or_eq_of_mem_set hmem with hmem2 | hEq
    · exact hm sm hmem2
    · subst hEq
      intro _
      simp [jsMinOpt]

theorem minInv_execList (ext : JsExt) (ts : Nat → TransportOutcome) (ss : List Step) :
    ∀ (i : Nat) (ctx : Context) (m : FlowMetrics),
    (∀ sm ∈ m.flowMetrics, sm.successCount > 0 → sm.minLatency ≠ none) →
    ∀ sm ∈ ((execList ext ts ss i ctx m).2.2.2.2).flowMetrics,
      sm.successCount > 0 → sm.minLatency ≠ none := by
  induction ss with
  | nil => intro i ctx m hm; exact hm
  | cons step rest ih =>
    intro i ctx m hm
    rcases hmr : makeRequest ext (ts i) step (buildRequestConfig step) ctx m i with ⟨r, m1⟩
    have hm1 : ∀ sm ∈ m1.flowMetrics, sm.successCount > 0 → sm.minLatency ≠ none := by
      have h := minInv_makeRequest ext (ts i) step (buildRequestConfig step) ctx m i hm
      rw [hmr] at h
      exact h
    rcases hrec : execList ext ts rest (i+1) (stepCtxUpdate step r ctx) m1 with
      ⟨tr, succ, af, ctxF, mF⟩
    have hmF : ∀ sm ∈ mF.flowMetrics, sm.successCount > 0 → sm.minLatency ≠ none := by
      have h := ih (i+1) (stepCtxUpdate step r ctx) m1 hm1
      rw [hrec] at h
      exact h
    cases hs : r.success
    · cases hstop : step.stopOnFailure == some false
      · simp only [execList, hmr, hs, hstop, Bool.false_eq_true, if_false]
        exact hm1
      · simp only [execList, hmr, hs, hstop, Bool.false_eq_true, if_false, if_true, hrec]
        exact hmF
    · simp only [execList, hmr, hs, if_true, hrec]
      exact hmF

theorem makeRequest_flowFields (ext : JsExt) (t : TransportOutcome) (step : Step)
    (cfg : RequestConfig) (ctx : Context) (m : FlowMetrics) (i : Nat) :
    ((makeRequest ext t step cfg ctx m i).2).successCount = m.successCount ∧
    ((makeRequest ext t step cfg ctx m i).2).minFlowTime = m.minFlowTime := by
  simp only [makeRequest]
  split <;> simp [updateStepMetrics]

theorem execList_flowFields (ext : JsExt) (ts : Nat → TransportOutcome) (ss : List Step) :
    ∀ (i : Nat) (ctx : Context) (m : FlowMetrics),
    ((execList ext ts ss i ctx m).2.2.2.2).successCount = m.successCount ∧
    ((execList ext ts ss i ctx m).2.2.2.2).minFlowTime = m.minFlowTime := by
  induction ss with
  | nil => intro i ctx m; exact ⟨rfl, rfl⟩
  | cons step rest ih =>
    intro i ctx m
    rcases hmr : makeRequest ext (ts i) step (buildRequestConfig step) ctx m i with ⟨r, m1⟩
    have h1 := makeRequest_flowFields ext (ts i) step (buildRequestConfig step) ctx m i
    rw [hmr] at h1
    simp only at h1
    rcases hrec : execList ext ts rest (i+1) (stepCtxUpdate step r ctx) m1 with
      ⟨tr, succ, af, ctxF, mF⟩
    have h2 := ih (i+1) (stepCtxUpdate step r ctx) m1
    rw [hrec] at h2
    simp only at h2
    cases hs : r.success
    · cases hstop : step.stopOnFailure == some false
      · simp only [execList, hmr, hs, hstop, Bool.false_eq_true, if_false]
        exact h1
      · simp only [execList, hmr, hs, hstop, Bool.false_eq_true, if_false, if_true, hrec]
        exact ⟨h2.1.trans h1.1, h2.2.trans h1.2⟩
    · simp only [execList, hmr, hs, if_true, hrec]
      exact ⟨h2.1.trans h1.1, h2.2.trans h1.2⟩

theorem minInv_executeFlow (ext : JsExt) (ts : Nat → TransportOutcome) (flow : List Step)
    (ftime : Nat) (m : FlowMetrics)
    (hm : ∀ sm ∈ m.flowMetrics, sm.successCount > 0 → sm.minLatency ≠ none)
    (hf : m.successCount > 0 → m.minFlowTime ≠ none) :
    (∀ sm ∈ ((executeFlow ext ts flow ftime m).2).flowMetrics,
       sm.successCount > 0 → sm.minLatency ≠ none) ∧
    ((executeFlow ext ts flow ftime m).2.successCount > 0 →
       (executeFlow ext ts flow ftime m).2.minFlowTime ≠ none) := by
  have hel := minInv_execList ext ts flow 0 [] m hm
  have hff := execList_flowFields ext ts flow 0 [] m
  rcases he : execList ext ts flow 0 [] m with ⟨tr, succ, af, ctxF, m1⟩
  rw [he] at hel hff
  simp only at hel hff
  simp only [executeFlow, he]
  cases hs : succ
  · refine ⟨hel, ?_⟩
    simp only [Bool.false_eq_true, if_false]
    intro hpos
    have : m.successCount > 0 := by
      have := hff.1
      omega
    have hfm := hf this
    have h2 := hff.2
    rw [h2]
    exact hfm
  · refine ⟨hel, ?_⟩
    simp [jsMinOpt]

theorem minInv_runFlows (ext : JsExt) (ts : Nat → Nat → TransportOutcome)
    (fts : Nat → Nat) (flow : List Step) :
    ∀ (n idx : Nat) (m : FlowMetrics),
    (∀ sm ∈ m.flowMetrics, sm.successCount > 0 → sm.minLatency ≠ none) →
    (m.successCount > 0 → m.minFlowTime ≠ none) →
    (∀ sm ∈ ((runFlows ext ts fts flow n idx m).1).flowMetrics,
       sm.successCount > 0 → sm.minLatency ≠ none) ∧
    ((runFlows ext ts fts flow n idx m).1.successCount > 0 →
       (runFlows ext ts fts flow n idx m).1.minFlowTime ≠ none) := by
  intro n
  induction n with
  | zero => intro idx m hm hf; exact ⟨hm, hf⟩
  | succ k ih =>
    intro idx m hm hf
    have hef := minInv_executeFlow ext (ts idx) flow (fts idx) m hm hf
    rcases he : executeFlow ext (ts idx) flow (fts idx) m with ⟨out, m1⟩
    rw [he] at hef
    simp only at hef
    have := ih (idx+1) m1 hef.1 hef.2
    rcases hrf : runFlows ext ts fts flow k (idx+1) m1 with ⟨mF, outs⟩
    rw [hrf] at this
    simp only at this
    simp only [runFlows, he, hrf]
    exact this

theorem flowReport_min_lines (verbose : Bool) (flow : List Step) (m : FlowMetrics)
    (tf : Nat) (v : Option Nat) :
    (ReportLine.stepMinLatency v ∈ flowDisplayResults verbose flow m tf →
       ∃ sm ∈ m.flowMetrics, sm.successCount > 0 ∧ v = sm.minLatency) ∧
    (ReportLine.minFlowTime v ∈ flowDisplayResults verbose flow m tf →
       m.successCount > 0 ∧ v = m.minFlowTime) := by
  constructor
  · intro hmem
    simp only [flowDisplayResults, List.mem_append, List.mem_cons, List.mem_singleton,
      List.mem_flatMap] at hmem
    rcases hmem with ((((h | h | h | h) | h) | h | h) | h) | ⟨p, hp, hline⟩
    · exact absurd h (by simp)
    · exact absurd h (by simp)
    · exact absurd h (by simp)
    · simp at h
    · split at h <;> simp at h
    · exact absurd h (by simp)
    · simp at h
    · split at h <;> simp at h
    · simp only [stepSection, List.mem_append, List.mem_cons, List.mem_singleton] at hline
      rcases hline with (((h1 | h1 | h1) | h1) | h1) | h1
      · exact absurd h1 (by simp)
      · exact absurd h1 (by simp)
      · simp at h1
      · split at h1 <;> simp at h1
      · split at h1
        · simp at h1
          exact ⟨p.1, (List.of_mem_zip hp).1, by assumption, h1⟩
        · simp at h1
      · split at h1
        · split at h1 <;> simp at h1
        · simp at h1
  · intro hmem
    simp only [flowDisplayResults, List.mem_append, List.mem_cons, List.mem_singleton,
      List.mem_flatMap] at hmem
    rcases hmem with ((((h | h | h | h) | h) | h | h) | h) | ⟨p, hp, hline⟩
    · exact absurd h (by simp)
    · exact absurd h (by simp)
    · exact absurd h (by simp)
    · simp at h
    · split at h <;> simp at h
    · exact absurd h (by simp)
    · simp at h
    · split at h
      · simp at h
        exact ⟨by assumption, h⟩
      · simp at h
    · simp only [stepSection, List.mem_append, List.mem_cons, List.mem_singleton] at hline
      rcases hline with (((h1 | h1 | h1) | h1) | h1) | h1
      · exact absurd h1 (by simp)
      · exact absurd h1 (by simp)
      · simp at h1
      · split at h1 <;> simp at h1
      · split at h1 <;> simp at h1
      · split at h1
        · split at h1 <;> simp at h1
        · simp at h1

/-- C5 (amended): min/max latency metrics start at the sentinels
    (Infinity as none, and 0).  In the flow engine a step's min/max are
    updated on every invocation whose transport call succeeded — also
    when the invocation is counted as a failure because assertions
    failed — and never on a thrown transport or templating error; the
    flow report prints a step's (or the flow-time) min only when the
    corresponding success count is positive, so it never shows the
    sentinel.  In the single-request engine min/max are updated only on
    successful requests, but the report prints them unconditionally, so
    a run with zero successes reports the Infinity sentinel. -/
theorem latency_minmax_sentinels :
    (stInitMetrics.minLatency = none ∧ stInitMetrics.maxLatency = 0)
  ∧ (∀ flow : List Step, (initFlowMetrics flow).minFlowTime = none
       ∧ (initFlowMetrics flow).maxFlowTime = 0)
  ∧ (∀ (flow : List Step) (j : Nat) (sm : StepMetrics),
       (initFlowMetrics flow).flowMetrics[j]? = some sm →
       sm.minLatency = none ∧ sm.maxLatency = 0)
  ∧ (∀ (ext : JsExt) (t : TransportOutcome) (step : Step) (cfg : RequestConfig)
       (ctx : Context) (m : FlowMetrics) (i : Nat) (core : RespCore),
       (do
          let _ ← templateRequestConfig ext ctx cfg
          t.result : Except String RespCore) = .ok core →
       i < m.flowMetrics.length →
       ∀ sm, m.flowMetrics[i]? = some sm →
       (((makeRequest ext t step cfg ctx m i).2).flowMetrics[i]?).map
           (fun x => x.minLatency) = some (jsMinOpt sm.minLatency t.latency)
       ∧ (((makeRequest ext t step cfg ctx m i).2).flowMetrics[i]?).map
           (fun x => x.maxLatency) = some (max sm.maxLatency t.latency))
  ∧ (∀ (ext : JsExt) (t : TransportOutcome) (step : Step) (cfg : RequestConfig)
       (ctx : Context) (m : FlowMetrics) (i : Nat) (e : String),
       (do
          let _ ← templateRequestConfig ext ctx cfg
          t.result : Except String RespCore) = .error e →
       i < m.flowMetrics.length →
       ∀ sm, m.flowMetrics[i]? = some sm →
       (((makeRequest ext t step cfg ctx m i).2).flowMetrics[i]?).map
           (fun x => x.minLatency) = some sm.minLatency
       ∧ (((makeRequest ext t step cfg ctx m i).2).flowMetrics[i]?).map
           (fun x => x.maxLatency) = some sm.maxLatency)
  ∧ (∀ (t : TransportOutcome) (m : STMetrics) (core : RespCore),
       t.result = .ok core →
       (stMakeRequest t m).minLatency = jsMinOpt m.minLatency t.latency
       ∧ (stMakeRequest t m).maxLatency = max m.maxLatency t.latency
       ∧ (stMakeRequest t m).successCount = m.successCount + 1)
  ∧ (∀ (t : TransportOutcome) (m : STMetrics) (e : String),
       t.result = .error e →
       (stMakeRequest t m).minLatency = m.minLatency
       ∧ (stMakeRequest t m).maxLatency = m.maxLatency
       ∧ (stMakeRequest t m).successCount = m.successCount)
  ∧ (∀ (ts : Nat → TransportOutcome) (n : Nat),
       (∀ j, j < n → ∃ e, (ts j).result = .error e) →
       (stRun ts n).successCount = 0 ∧ (stRun ts n).minLatency = none ∧
       ReportLine.stMinLatency none ∈ stDisplayResults n (stRun ts n))
  ∧ (∀ (ext : JsExt) (ts : Nat → Nat → TransportOutcome) (fts : Nat → Nat)
       (flow : List Step) (n : Nat) (verbose : Bool) (tf : Nat) (v : Option Nat),
       ReportLine.stepMinLatency v ∈ flowDisplayResults verbose flow
         (runFlows ext ts fts flow n 0 (initFlowMetrics flow)).1 tf → v ≠ none)
  ∧ (∀ (ext : JsExt) (ts : Nat → Nat → TransportOutcome) (fts : Nat → Nat)
       (flow : List Step) (n : Nat) (verbose : Bool) (tf : Nat) (v : Option Nat),
       ReportLine.minFlowTime v ∈ flowDisplayResults verbose flow
         (runFlows ext ts fts flow n 0 (initFlowMetrics flow)).1 tf → v ≠ none) := by
  have hinitStep : ∀ (flow : List Step) (j : Nat) (sm : StepMetrics),
      (initFlowMetrics flow).flowMetrics[j]? = some sm →
      sm.minLatency = none ∧ sm.maxLatency = 0 := by
    intro flow j sm h
    simp only [initFlowMetrics, List.getElem?_map] at h
    cases hg : (flow.enum)[j]? with
    | none => rw [hg] at h; simp at h
    | some q => rw [hg] at h; simp at h; rw [← h]; simp [initStepMetrics]
  have hrunInv := fun ext ts fts flow n => minInv_runFlows ext ts fts flow n 0
    (initFlowMetrics flow)
    (by
      intro sm hmem hpos
      simp only [initFlowMetrics, List.mem_map] at hmem
      obtain ⟨q, _, hq⟩ := hmem
      rw [← hq] at hpos
      simp [initStepMetrics] at hpos)
    (by intro hpos; simp [initFlowMetrics] at hpos)
  refine ⟨⟨rfl, rfl⟩, fun flow => ⟨rfl, rfl⟩, hinitStep, ?_, ?_, ?_, ?_, ?_, ?_, ?_⟩
  · intro ext t step cfg ctx m i core hatt hi sm hsm
    simp only [makeRequest, hatt]
    simp only [updateStepMetrics]
    rw [List.getElem?_set_eq_of_lt _ hi, hsm]
    constructor <;> (simp only [Option.getD_some, Option.map_some]; split <;> simp)
  · intro ext t step cfg ctx m i e hatt hi sm hsm
    simp only [makeRequest, hatt]
    simp only [updateStepMetrics]
    rw [List.getElem?_set_eq_of_lt _ hi, hsm]
    constructor <;> simp
  · intro t m core h
    simp [stMakeRequest, h]
  · intro t m e h
    simp [stMakeRequest, h]
  · intro ts n h
    have hr : stRun ts n = { stInitMetrics with failureCount := 0 + n } := by
      unfold stRun
      exact stRunFrom_all_errors ts n 0 stInitMetrics (by intro j hj; simpa using h j hj)
    refine ⟨by rw [hr]; rfl, by rw [hr]; rfl, ?_⟩
    have hm := (stReport_contains_min n (stRun ts n)).1
    rw [hr] at hm
    rw [hr]
    simpa using hm
  · intro ext ts fts flow n verbose tf v hmem
    obtain ⟨sm, hsm, hpos, hveq⟩ := (flowReport_min_lines verbose flow _ tf v).1 hmem
    have hne := (hrunInv ext ts fts flow n).1 sm hsm hpos
    rw [hveq]
    exact hne
  · intro ext ts fts flow n verbose tf v hmem
    obtain ⟨hpos, hveq⟩ := (flowReport_min_lines verbose flow _ tf v).2 hmem
    have hne := (hrunInv ext ts fts flow n).2 hpos
    rw [hveq]
    exact hne

/-- C5 witness: a two-request run in which every transport call throws
    ends with zero successes and its report carries the min latency
    sentinel line. -/
theorem latency_minmax_sentinels_witness :
    ReportLine.stMinLatency none ∈ stDisplayResults 2 (stRun tsBoom 2) := by
  have h := latency_minmax_sentinels.2.2.2.2.2.2.2.1 tsBoom 2
    (fun j hj => ⟨"boom", rfl⟩)
  exact h.2.2
